import Mathlib

/-!
# Key issuance and request quota of `src/index.js`

A shallow embedding of the `apiKeySystem` object of `src/index.js` (key issuance,
authentication, request counting), of the gate middleware and of the startup load,
followed by theorems about them.

Modelling conventions.

* The two global objects `apiKeys` and `requestCounts` are plain JavaScript objects. They are
  embedded as insertion-ordered association lists of their own properties; a property read
  `o[k]` also sees the properties every plain object inherits from `Object.prototype`.
* `uuid.v4()` and the outcome of each `fs.writeFile` are inputs of the operation that uses them.
* Every operation runs to completion, its file writes included, before the next one starts.
* The two files hold the documents written by `JSON.stringify`; a missing or unreadable file is
  `none`. A failed write leaves the file as it was.
-/

namespace AuthApi

/-! ## JavaScript objects -/

/-- Names of the properties that every plain object inherits from `Object.prototype`. -/
def objectPrototypeNames : List String :=
  ["constructor", "__defineGetter__", "__defineSetter__", "hasOwnProperty",
   "__lookupGetter__", "__lookupSetter__", "isPrototypeOf", "propertyIsEnumerable",
   "toString", "valueOf", "__proto__", "toLocaleString"]

/-- Result of a property read `o[k]`: an own property, a property inherited from
`Object.prototype` (a function, or the prototype object itself for `__proto__`), or `undefined`. -/
inductive Slot (α : Type) where
  | own (v : α)
  | inherited
  | absent
  deriving DecidableEq, Repr

/-- Own property `key` of an object, if it has one. -/
def ownGet {α : Type} : List (String × α) → String → Option α
  | [], _ => none
  | (k, v) :: rest, key => if k = key then some v else ownGet rest key

/-- Property read `o[key]`. -/
def jsGet {α : Type} (o : List (String × α)) (key : String) : Slot α :=
  match ownGet o key with
  | some v => Slot.own v
  | none => if key ∈ objectPrototypeNames then Slot.inherited else Slot.absent

/-- Writes own property `key`: an existing property keeps its place, a new one goes last. -/
def ownSet {α : Type} : List (String × α) → String → α → List (String × α)
  | [], key, v => [(key, v)]
  | (k, x) :: rest, key, v =>
    if k = key then (k, v) :: rest else (k, x) :: ownSet rest key v

/-- Assignment `o[key] = v` of a primitive value `v`. The inherited `__proto__` is an accessor
whose setter ignores primitives; every other name becomes (or stays) an own property. -/
def jsSet {α : Type} (o : List (String × α)) (key : String) (v : α) : List (String × α) :=
  if (ownGet o key).isNone && key = "__proto__" then o else ownSet o key v

/-- Values a request can carry as its API key. A number is held by the two things the source
observes of it: whether it is truthy (it is not 0, -0 or `NaN`) and its string conversion (for
instance `1e+21`); `object` stands for any array or object and holds its string conversion. -/
inductive JsVal where
  | undefined
  | null
  | bool (b : Bool)
  | num (nonzero : Bool) (toStr : String)
  | str (s : String)
  | object (toStr : String)
  deriving DecidableEq, Repr

/-- Truthiness of a value (`ToBoolean`). -/
def JsVal.truthy : JsVal → Bool
  | JsVal.undefined => false
  | JsVal.null => false
  | JsVal.bool b => b
  | JsVal.num nonzero _ => nonzero
  | JsVal.str s => s != ""
  | JsVal.object _ => true

/-- Conversion of a value used as a property name (`ToPropertyKey`). -/
def JsVal.toPropertyKey : JsVal → String
  | JsVal.undefined => "undefined"
  | JsVal.null => "null"
  | JsVal.bool b => if b then "true" else "false"
  | JsVal.num _ t => t
  | JsVal.str s => s
  | JsVal.object t => t

/-! ## `validateEmail` -/

/-- Characters matched by `\s` in a JavaScript regular expression. -/
def isJsWhitespace (c : Char) : Bool :=
  c.toNat ∈ [0x09, 0x0A, 0x0B, 0x0C, 0x0D, 0x20, 0xA0, 0x1680, 0x2028, 0x2029, 0x202F,
    0x205F, 0x3000, 0xFEFF] || (0x2000 ≤ c.toNat && c.toNat ≤ 0x200A)

/-- Line terminators, the characters that `.` does not match. -/
def isLineTerminator (c : Char) : Bool :=
  c.toNat ∈ [0x0A, 0x0D, 0x2028, 0x2029]

/-- Code points of the characters listed in the class `[^<>()\[\]\\.,;:\s@"]`, in that order:
`<`, `>`, `(`, `)`, `[`, `]`, backslash, `.`, `,`, `;`, `:`, `@`, double quote. -/
def excludedCodes : List Nat := [60, 62, 40, 41, 91, 93, 92, 46, 44, 59, 58, 64, 34]

/-- Membership in the negated class `[^<>()\[\]\\.,;:\s@"]`. -/
def isAtomChar (c : Char) : Bool :=
  !(c.toNat ∈ excludedCodes) && !isJsWhitespace c

/-- Matches `[^…]+(\.[^…]+)*@` at the start of the input; `inAtom` tells that the
current `[^…]+` run already holds a character. -/
def matchDotAtom : Bool → List Char → Bool
  | _, [] => false
  | inAtom, c :: cs =>
    if isAtomChar c then matchDotAtom true cs
    else if c = '.' then inAtom && matchDotAtom false cs
    else if c = '@' then inAtom
    else false

/-- Matches `.+"@` at the start of the input; `seen` tells that `.+` already holds a
character. -/
def matchQuotedBody : Bool → List Char → Bool
  | _, [] => false
  | seen, c :: cs =>
    (seen && c.toNat = 34 && cs.head? = some '@') ||
      (!isLineTerminator c && matchQuotedBody true cs)

/-- Matches `".+"@` at the start of the input. -/
def matchQuoted : List Char → Bool
  | [] => false
  | c :: cs => c.toNat = 34 && matchQuotedBody false cs

/-- The test `/^(([^<>()\[\]\\.,;:\s@"]+(\.[^<>()\[\]\\.,;:\s@"]+)*)|(".+"))@/.test(email)`.
The input is read as a list of code points; the expression works on UTF-16 code units, and a
code point outside the basic plane is two units that both lie in the negated class and are
both matched by `.`, so the two readings agree. -/
def validateEmail (email : String) : Bool :=
  matchDotAtom false email.data || matchQuoted email.data

/-! ## `uuid.v4()` -/

/-- Lower-case hexadecimal digit. -/
def isHexDigit (c : Char) : Bool :=
  ('0' ≤ c && c ≤ '9') || ('a' ≤ c && c ≤ 'f')

/-- Shape of a string returned by `uuid.v4()`: 36 characters `xxxxxxxx-xxxx-4xxx-yxxx-xxxxxxxxxxxx`
with `x` a hexadecimal digit and `y` one of `8`, `9`, `a`, `b`. -/
def isUuidV4 (s : String) : Bool :=
  s.data.length = 36 &&
  (List.range 36).all (fun i =>
    let c := s.data.getD i ' '
    if i = 8 || i = 13 || i = 18 || i = 23 then c = '-'
    else if i = 14 then c = '4'
    else if i = 19 then c ∈ ['8', '9', 'a', 'b']
    else isHexDigit c)

/-! ## State -/

/-- Value of an entry of `requestCounts`: a number, `NaN`, or the `null` that `NaN` becomes
in the JSON document. -/
inductive Count where
  | num (n : Nat)
  | nan
  | null
  deriving DecidableEq, Repr

/-- The constant `MAX_REQUESTS`. -/
def MAX_REQUESTS : Nat := 10

/-- In-memory maps, the two files, and the number of `fs.writeFile` calls made so far. -/
structure State where
  apiKeys : List (String × String)
  requestCounts : List (String × Count)
  apiKeysFile : Option (List (String × String))
  requestCountsFile : Option (List (String × Option Nat))
  writesIssued : Nat
  deriving DecidableEq, Repr

/-- Both maps empty, no file written yet. -/
def State.empty : State :=
  { apiKeys := [], requestCounts := [], apiKeysFile := none, requestCountsFile := none,
    writesIssued := 0 }

/-- Image of a count under `JSON.stringify`: `NaN` is written as `null`. -/
def Count.toJson : Count → Option Nat
  | Count.num n => some n
  | Count.nan => none
  | Count.null => none

/-- Image of a JSON number or `null` under `JSON.parse`. -/
def Count.ofJson : Option Nat → Count
  | some n => Count.num n
  | none => Count.null

/-! ## `apiKeySystem` -/

/-- The call `saveApiKeys`: one write of `JSON.stringify(apiKeys)`; `ok` is its outcome. -/
def saveApiKeys (s : State) (ok : Bool) : State :=
  { s with
    apiKeysFile := if ok then some s.apiKeys else s.apiKeysFile
    writesIssued := s.writesIssued + 1 }

/-- The call `saveRequestCounts`: one write of `JSON.stringify(requestCounts)`. -/
def saveRequestCounts (s : State) (ok : Bool) : State :=
  { s with
    requestCountsFile :=
      if ok then some (s.requestCounts.map (fun p => (p.1, p.2.toJson))) else s.requestCountsFile
    writesIssued := s.writesIssued + 1 }

/-- Error objects handed to a callback. -/
inductive JsError where
  | message (m : String)
  | writeFailed
  deriving DecidableEq, Repr

/-- Arguments with which `generateApiKey` invokes its callback: `callback(err)` or
`callback(null, value)`. -/
inductive IssueCallback where
  | err (e : JsError)
  | key (apiKey : Slot String)
  deriving DecidableEq, Repr

/-- Truthiness of `apiKeys[k]`. -/
def truthyKey : Slot String → Bool
  | Slot.own k => k != ""
  | Slot.inherited => true
  | Slot.absent => false

/-- The method `generateApiKey(email, callback)`; `fresh` is the value of `uuid.v4()`, `keysOk`
and `countsOk` the outcomes of the two writes. -/
def generateApiKey (s : State) (email fresh : String) (keysOk countsOk : Bool) :
    IssueCallback × State :=
  if !validateEmail email then
    (IssueCallback.err (JsError.message "Invalid email address"), s)
  else if truthyKey (jsGet s.apiKeys email) then
    (IssueCallback.key (jsGet s.apiKeys email), s)
  else
    let s1 : State := { s with
      apiKeys := jsSet s.apiKeys email fresh
      requestCounts := jsSet s.requestCounts fresh (Count.num 0) }
    let s2 := saveApiKeys s1 keysOk
    if !keysOk then (IssueCallback.err JsError.writeFailed, s2)
    else
      let s3 := saveRequestCounts s2 countsOk
      if !countsOk then (IssueCallback.err JsError.writeFailed, s3)
      else (IssueCallback.key (Slot.own fresh), s3)

/-- The comparison `apiKeys[key] === apiKey`. -/
def strictEq : Slot String → JsVal → Bool
  | Slot.own k, JsVal.str s => k == s
  | Slot.absent, JsVal.undefined => true
  | _, _ => false

/-- The method `authenticateApiKey(apiKey)`:
`!!apiKeys[Object.keys(apiKeys).find(key => apiKeys[key] === apiKey)]`. -/
def authenticateApiKey (s : State) (apiKey : JsVal) : Bool :=
  let found := (s.apiKeys.map Prod.fst).find? (fun key => strictEq (jsGet s.apiKeys key) apiKey)
  truthyKey (jsGet s.apiKeys
    (match found with
     | some key => key
     | none => JsVal.undefined.toPropertyKey))

/-- The test `requestCounts[apiKey] !== undefined`. -/
def isDefined : Slot Count → Bool
  | Slot.absent => false
  | _ => true

/-- The test `requestCounts[apiKey] >= MAX_REQUESTS`; a function, an object and `NaN` convert
to `NaN`, which compares false, and `null` converts to 0. -/
def atLimit : Slot Count → Bool
  | Slot.own (Count.num n) => decide (MAX_REQUESTS ≤ n)
  | _ => false

/-- The value stored by `requestCounts[apiKey]++`. -/
def incremented : Slot Count → Count
  | Slot.own (Count.num n) => Count.num (n + 1)
  | Slot.own Count.null => Count.num 1
  | _ => Count.nan

/-- How a call ends: it returns (with the state it leaves) or throws an `Error` with a message,
in which case the state is the one before the call. -/
inductive Completion where
  | returned (s : State)
  | thrown (message : String)
  deriving DecidableEq, Repr

/-- The method `incrementRequestCount(apiKey)`; `saveOk` is the outcome of the write. -/
def incrementRequestCount (s : State) (apiKey : String) (saveOk : Bool) : Completion :=
  if isDefined (jsGet s.requestCounts apiKey) then
    if atLimit (jsGet s.requestCounts apiKey) then
      Completion.thrown "Too Many Requests"
    else
      Completion.returned (saveRequestCounts
        { s with requestCounts :=
            jsSet s.requestCounts apiKey (incremented (jsGet s.requestCounts apiKey)) } saveOk)
  else Completion.returned s

/-- State after a call: a throw leaves the state of before the call. -/
def Completion.stateAfter (before : State) : Completion → State
  | Completion.returned s => s
  | Completion.thrown _ => before

/-! ## Gate middleware and startup -/

/-- What the gate middleware does with a request: pass it on with `next()`, or answer it. -/
inductive GateResult where
  | next
  | send (status : Nat) (body : String)
  deriving DecidableEq, Repr

/-- The expression `req.query.apiKey || (req.body && req.body.api_key)`; `queryKey` is
`req.query.apiKey`, `bodyKey` is `req.body && req.body.api_key`. -/
def requestKey (queryKey bodyKey : JsVal) : JsVal :=
  if queryKey.truthy then queryKey else bodyKey

/-- The gate middleware. -/
def gate (s : State) (queryKey bodyKey : JsVal) (saveOk : Bool) : GateResult × State :=
  if authenticateApiKey s (requestKey queryKey bodyKey) then
    match incrementRequestCount s (requestKey queryKey bodyKey).toPropertyKey saveOk with
    | Completion.returned s1 => (GateResult.next, s1)
    | Completion.thrown message => (GateResult.send 429 message, s)
  else (GateResult.send 401 "API key is invalid", s)

/-- The startup load: `none` when `api_keys.json` cannot be read (`process.exit(1)`); an
unreadable `request_counts.json` leaves `requestCounts` empty. A file is given by the document
it holds, with the entries in the order in which `JSON.parse` lists them; a file that can be
read but does not parse (`JSON.parse` then throws out of the callback) is not among the
inputs. -/
def startup (apiKeysFile : Option (List (String × String)))
    (requestCountsFile : Option (List (String × Option Nat))) : Option State :=
  match apiKeysFile with
  | none => none
  | some keys =>
    some { apiKeys := keys
           requestCounts :=
             match requestCountsFile with
             | some counts => counts.map (fun p => (p.1, Count.ofJson p.2))
             | none => []
           apiKeysFile := apiKeysFile
           requestCountsFile := requestCountsFile
           writesIssued := 0 }

/-! ## Runs -/

/-- One operation on the state, with the inputs it consumes. -/
inductive Op where
  | issue (email fresh : String) (keysOk countsOk : Bool)
  | increment (apiKey : String) (saveOk : Bool)
  | request (queryKey bodyKey : JsVal) (saveOk : Bool)
  deriving DecidableEq, Repr

/-- State after one operation. -/
def step (s : State) : Op → State
  | Op.issue email fresh keysOk countsOk => (generateApiKey s email fresh keysOk countsOk).2
  | Op.increment apiKey saveOk => (incrementRequestCount s apiKey saveOk).stateAfter s
  | Op.request queryKey bodyKey saveOk => (gate s queryKey bodyKey saveOk).2

/-- State after a sequence of operations. -/
def run (s : State) (ops : List Op) : State :=
  ops.foldl step s

/-- The keys an `issue` generates have the shape of `uuid.v4()` results. -/
def Op.wellFormed : Op → Bool
  | Op.issue _ fresh _ _ => isUuidV4 fresh
  | _ => true

/-- Is the operation a call of `generateApiKey`. -/
def Op.isIssue : Op → Bool
  | Op.issue _ _ _ _ => true
  | _ => false

/-- Is the operation a call of `generateApiKey` or a request through the gate. -/
def Op.isIssueOrRequest : Op → Bool
  | Op.increment _ _ => false
  | _ => true

/-! ## Routes

The handlers are mounted in the order of the source: `express.json()`, the gate middleware,
the handler mounted at `/`, the four routes, and the 404 handler. What `express.json()` does
with the body is an input of the request: it rejects the body with an error status (400 for a
body that does not parse, 413, 415), which Express answers at once, or it leaves `req.body` set
and calls `next()`. -/

/-- Truthiness of `requestCounts[apiKey]`: 0, `NaN`, `null` and `undefined` are falsy. -/
def truthyCount : Slot Count → Bool
  | Slot.own (Count.num n) => n != 0
  | Slot.own Count.nan => false
  | Slot.own Count.null => false
  | Slot.inherited => true
  | Slot.absent => false

/-- The expression `requestCounts[apiKey] || 0` of the route `/request-count/:apiKey`. -/
def requestCountOf (s : State) (apiKey : String) : Slot Count :=
  if truthyCount (jsGet s.requestCounts apiKey) then jsGet s.requestCounts apiKey
  else Slot.own (Count.num 0)

/-- What a handler sends: a text, the `message` of an error, one of the four objects
`{ api_key }`, `{ randomNumber }` (the number itself is left out), `{ status: 'API key valid' }`
and `{ api_key, request_count }`, or the error page Express sends for a rejected body. -/
inductive Body where
  | text (s : String)
  | parserError
  | errorMessage (e : JsError)
  | apiKey (value : Slot String)
  | randomNumber
  | keyValid
  | requestCount (apiKey : String) (count : Slot Count)
  deriving DecidableEq, Repr

/-- A response: status code (200 when the handler sets none) and body. -/
structure Response where
  status : Nat
  body : Body
  deriving DecidableEq, Repr

/-- A request: method, path segments, the status with which `express.json()` rejects the body
(`none` when it does not), `req.query.apiKey` and `req.body.api_key`. -/
structure Request where
  method : String
  path : List String
  bodyError : Option Nat
  queryKey : JsVal
  bodyKey : JsVal
  deriving DecidableEq, Repr

/-- Inputs a request may consume: the outcome of the gate's count write, the value of
`uuid.v4()` and the outcomes of the two writes of an issuance. -/
structure Inputs where
  saveOk : Bool
  fresh : String
  keysOk : Bool
  countsOk : Bool
  deriving DecidableEq, Repr

/-- The handler of `GET /generate-api-key/:email`. -/
def generateApiKeyRoute (s : State) (email fresh : String) (keysOk countsOk : Bool) :
    Response × State :=
  match generateApiKey s email fresh keysOk countsOk with
  | (IssueCallback.err e, s1) => ({ status := 400, body := Body.errorMessage e }, s1)
  | (IssueCallback.key value, s1) => ({ status := 200, body := Body.apiKey value }, s1)

/-- The handler of `GET /random-number`. -/
def randomNumberRoute (s : State) (queryKey : JsVal) : Response :=
  if authenticateApiKey s queryKey then { status := 200, body := Body.randomNumber }
  else { status := 401, body := Body.text "API key is invalid" }

/-- The handler of `POST /authenticate-api-key`. -/
def authenticateApiKeyRoute (s : State) (bodyKey : JsVal) : Response :=
  if !bodyKey.truthy then
    { status := 400, body := Body.text "API key is missing in request body" }
  else if !authenticateApiKey s bodyKey then
    { status := 401, body := Body.text "Invalid API key" }
  else { status := 200, body := Body.keyValid }

/-- The handler of `GET /request-count/:apiKey`. -/
def requestCountRoute (s : State) (apiKey : String) : Response :=
  { status := 200, body := Body.requestCount apiKey (requestCountOf s apiKey) }

/-- The handlers of the application. -/
inductive Handler where
  | jsonParser
  | gate
  | welcome
  | generateApiKey
  | randomNumber
  | authenticateApiKey
  | requestCount
  | notFound
  deriving DecidableEq, Repr

/-- A mounted handler: which requests it is run for, and what it does; it answers, or it
calls `next()` (`none`). -/
structure Layer where
  handler : Handler
  applies : Request → Bool
  act : State → Request → Inputs → Option Response × State

/-- Methods served by a route registered with `app.get`. -/
def isGet (method : String) : Bool :=
  method = "GET" || method = "HEAD"

/-- The handlers in the order in which the source mounts them. `app.use` without a path and
`app.use('/', …)` apply to every method and path; a route applies when the method fits and
the path has the segments of its pattern, the parameter being the second segment. -/
def layers : List Layer :=
  [ { handler := Handler.jsonParser
      applies := fun _ => true
      act := fun s req _ =>
        match req.bodyError with
        | some status => (some { status := status, body := Body.parserError }, s)
        | none => (none, s) },
    { handler := Handler.gate
      applies := fun _ => true
      act := fun s req inp =>
        match gate s req.queryKey req.bodyKey inp.saveOk with
        | (GateResult.next, s1) => (none, s1)
        | (GateResult.send status body, s1) =>
          (some { status := status, body := Body.text body }, s1) },
    { handler := Handler.welcome
      applies := fun _ => true
      act := fun s _ _ => (some { status := 200, body := Body.text "Welcome" }, s) },
    { handler := Handler.generateApiKey
      applies := fun req => isGet req.method && req.path.length = 2 &&
        req.path.head? = some "generate-api-key"
      act := fun s req inp =>
        let r := generateApiKeyRoute s (req.path.getD 1 "") inp.fresh inp.keysOk inp.countsOk
        (some r.1, r.2) },
    { handler := Handler.randomNumber
      applies := fun req => isGet req.method && req.path = ["random-number"]
      act := fun s req _ => (some (randomNumberRoute s req.queryKey), s) },
    { handler := Handler.authenticateApiKey
      applies := fun req => req.method = "POST" && req.path = ["authenticate-api-key"]
      act := fun s req _ => (some (authenticateApiKeyRoute s req.bodyKey), s) },
    { handler := Handler.requestCount
      applies := fun req => isGet req.method && req.path.length = 2 &&
        req.path.head? = some "request-count"
      act := fun s req _ => (some (requestCountRoute s (req.path.getD 1 "")), s) },
    { handler := Handler.notFound
      applies := fun _ => true
      act := fun s _ _ => (some { status := 404, body := Body.text "404 - Not Found" }, s) } ]

/-- Runs the handlers that apply to the request, in order, until one answers. -/
def dispatch : List Layer → State → Request → Inputs → Option (Handler × Response) × State
  | [], s, _, _ => (none, s)
  | layer :: rest, s, req, inp =>
    if layer.applies req then
      match layer.act s req inp with
      | (some response, s1) => (some (layer.handler, response), s1)
      | (none, s1) => dispatch rest s1 req inp
    else dispatch rest s req inp

/-- The application serving one request. -/
def handleRequest (s : State) (req : Request) (inp : Inputs) :
    Option (Handler × Response) × State :=
  dispatch layers s req inp

/-- State after serving a sequence of requests. -/
def serve (s : State) (reqs : List (Request × Inputs)) : State :=
  reqs.foldl (fun st r => (handleRequest st r.1 r.2).2) s

/-- State after a restart: the startup load applied to the two files. -/
def reload (s : State) : Option State :=
  startup s.apiKeysFile s.requestCountsFile

/-! ## Vocabulary of the statements -/

/-- The candidate is a string equal to the key bound to some email in `apiKeys`. -/
def issuedKey (s : State) (candidate : JsVal) : Prop :=
  ∃ email key, ownGet s.apiKeys email = some key ∧ candidate = JsVal.str key

/-- The count `after` is not below the count `before`: numbers compare as numbers, `null`
counts as 0, and `NaN` compares only with itself (the entry is unchanged). -/
def Count.notBelow : (before after : Count) → Bool
  | Count.num a, Count.num b => decide (a ≤ b)
  | Count.null, Count.num _ => true
  | Count.null, Count.null => true
  | Count.nan, Count.nan => true
  | _, _ => false

/-- Every entry of `apiKeys` binds a valid email to a `uuid.v4()` result that has a numeric
entry in `requestCounts`. -/
def Consistent (s : State) : Prop :=
  ∀ email key, (email, key) ∈ s.apiKeys →
    validateEmail email = true ∧ isUuidV4 key = true ∧
      ∃ n, ownGet s.requestCounts key = some (Count.num n)

/-- Every entry of `requestCounts` is a number between 0 and `MAX_REQUESTS`. -/
def Capped (s : State) : Prop :=
  ∀ key c, (key, c) ∈ s.requestCounts → ∃ n, c = Count.num n ∧ n ≤ MAX_REQUESTS

/-- A direct call of `incrementRequestCount` is on a name that objects do not inherit. -/
def Op.uninherited : Op → Bool
  | Op.increment apiKey _ => !(apiKey ∈ objectPrototypeNames)
  | _ => true

/-- Code points of the characters the description of the local part lists: `<`, `>`, `(`,
`)`, `[`, `]`, backslash, `,`, `;`, `:`, double quote. -/
def listedSpecialCodes : List Nat := [60, 62, 40, 41, 91, 93, 92, 44, 59, 58, 34]

/-- The character is none of the listed characters and no whitespace. -/
def localPartChar (c : Char) : Bool :=
  !(c.toNat ∈ listedSpecialCodes) && !isJsWhitespace c

/-- Two dots in a row. -/
def hasConsecutiveDots : List Char → Bool
  | [] => false
  | a :: rest => (a = '.' && rest.head? = some '.') || hasConsecutiveDots rest

/-- Shape of a local part in the words of the description: non-empty, none of the listed
characters and no whitespace, no leading, trailing or consecutive dots. -/
def localPartShape (loc : List Char) : Bool :=
  !loc.isEmpty && loc.all localPartChar && loc.head? != some '.' &&
    loc.getLast? != some '.' && !hasConsecutiveDots loc

/-- The text before the first `@`, if the input contains `@`. -/
def textBeforeAt : List Char → Option (List Char)
  | [] => none
  | c :: cs => if c = '@' then some [] else (textBeforeAt cs).map (fun loc => c :: loc)

/-- The description of `validateEmail` for inputs that do not begin with a double quote: the
input contains `@` and the text before the first `@` has the shape of a local part. -/
def describedValid (email : String) : Bool :=
  match textBeforeAt email.data with
  | some loc => localPartShape loc
  | none => false

/-- The shape of the rest of a local part; `inAtom` tells that the character before is
neither a dot nor missing. -/
def shapeFrom : Bool → List Char → Bool
  | inAtom, [] => inAtom
  | inAtom, c :: cs =>
    if c = '.' then inAtom && shapeFrom false cs else localPartChar c && shapeFrom true cs

/-- The files mirror the maps: `api_keys.json` holds `apiKeys`, and `request_counts.json` holds
`requestCounts` or is missing while `requestCounts` is empty. -/
def Synced (s : State) : Prop :=
  s.apiKeysFile = some s.apiKeys ∧
    (s.requestCountsFile = some (s.requestCounts.map (fun p => (p.1, p.2.toJson))) ∨
      (s.requestCountsFile = none ∧ s.requestCounts = []))

/-- Every write of the operation succeeds. -/
def Op.writesSucceed : Op → Bool
  | Op.issue _ _ keysOk countsOk => keysOk && countsOk
  | Op.increment _ saveOk => saveOk
  | Op.request _ _ saveOk => saveOk

/-- Every key with an entry in `requestCounts` is bound to some email in `apiKeys`. -/
def CountsIssued (s : State) : Prop :=
  ∀ key c, (key, c) ∈ s.requestCounts → ∃ email, ownGet s.apiKeys email = some key

/-! ## Facts about the object model -/

theorem ownGet_ownSet {α : Type} (o : List (String × α)) (key key2 : String) (v : α) :
    ownGet (ownSet o key v) key2 = if key = key2 then some v else ownGet o key2 := by
  induction o with
  | nil => simp [ownSet, ownGet]
  | cons p rest ih =>
    obtain ⟨k, x⟩ := p
    by_cases hk : k = key
    · subst hk
      by_cases h2 : k = key2 <;> simp [ownSet, ownGet, h2]
    · by_cases h2 : k = key2
      · subst h2
        have : ¬ key = k := fun h => hk h.symm
        simp [ownSet, ownGet, hk, this]
      · simp [ownSet, ownGet, hk, h2, ih]

theorem ownGet_jsSet_ne {α : Type} (o : List (String × α)) (key key2 : String) (v : α)
    (h : key ≠ key2) : ownGet (jsSet o key v) key2 = ownGet o key2 := by
  unfold jsSet
  split
  · rfl
  · rw [ownGet_ownSet]; simp [h]

theorem ownGet_jsSet_self {α : Type} (o : List (String × α)) (key : String) (v : α)
    (h : key ≠ "__proto__") : ownGet (jsSet o key v) key = some v := by
  unfold jsSet
  simp [h, ownGet_ownSet]

theorem ownGet_jsSet_own {α : Type} (o : List (String × α)) (key : String) (v x : α)
    (h : ownGet o key = some x) : ownGet (jsSet o key v) key = some v := by
  unfold jsSet
  simp [h, ownGet_ownSet]

theorem ownGet_mem {α : Type} (o : List (String × α)) (key : String) (v : α)
    (h : ownGet o key = some v) : (key, v) ∈ o := by
  induction o with
  | nil => simp [ownGet] at h
  | cons p rest ih =>
    obtain ⟨k, x⟩ := p
    by_cases hk : k = key
    · subst hk
      simp [ownGet] at h
      simp [h]
    · simp [ownGet, hk] at h
      exact List.mem_cons_of_mem _ (ih h)

theorem mem_ownGet {α : Type} (o : List (String × α)) (key : String) (v : α)
    (h : (key, v) ∈ o) : ∃ x, ownGet o key = some x := by
  induction o with
  | nil => simp at h
  | cons p rest ih =>
    obtain ⟨k, x⟩ := p
    by_cases hk : k = key
    · exact ⟨x, by simp [ownGet, hk]⟩
    · have hne : (key, v) ≠ (k, x) := by
        intro he
        exact hk (by simp [Prod.ext_iff] at he; exact he.1.symm)
      rcases List.mem_cons.mp h with h1 | h1
      · exact absurd h1 hne
      · obtain ⟨y, hy⟩ := ih h1
        exact ⟨y, by simp [ownGet, hk, hy]⟩

theorem mem_ownSet {α : Type} (o : List (String × α)) (key : String) (v : α)
    (p : String × α) (h : p ∈ ownSet o key v) : p ∈ o ∨ p = (key, v) := by
  induction o with
  | nil => simp [ownSet] at h; exact Or.inr h
  | cons q rest ih =>
    obtain ⟨k, x⟩ := q
    by_cases hk : k = key
    · subst hk
      simp only [ownSet, if_true] at h
      rcases List.mem_cons.mp h with h1 | h1
      · exact Or.inr h1
      · exact Or.inl (List.mem_cons_of_mem _ h1)
    · simp only [ownSet, hk, if_false] at h
      rcases List.mem_cons.mp h with h1 | h1
      · exact Or.inl (by simp [h1])
      · rcases ih h1 with h2 | h2
        · exact Or.inl (List.mem_cons_of_mem _ h2)
        · exact Or.inr h2

theorem mem_jsSet {α : Type} (o : List (String × α)) (key : String) (v : α)
    (p : String × α) (h : p ∈ jsSet o key v) : p ∈ o ∨ p = (key, v) := by
  unfold jsSet at h
  split at h
  · exact Or.inl h
  · exact mem_ownSet o key v p h

theorem validateEmail_not_inherited (email : String) (h : validateEmail email = true) :
    email ∉ objectPrototypeNames := by
  intro hm
  simp only [objectPrototypeNames, List.mem_cons, List.mem_singleton, List.mem_nil_iff,
    or_false] at hm
  revert h
  rcases hm with h | h | h | h | h | h | h | h | h | h | h | h <;> subst h <;> decide

theorem validateEmail_ne_undefined (email : String) (h : validateEmail email = true) :
    email ≠ "undefined" := by
  intro he
  subst he
  revert h
  decide

theorem isUuidV4_not_inherited (key : String) (h : isUuidV4 key = true) :
    key ∉ objectPrototypeNames := by
  intro hm
  simp only [objectPrototypeNames, List.mem_cons, List.mem_singleton, List.mem_nil_iff,
    or_false] at hm
  revert h
  rcases hm with h | h | h | h | h | h | h | h | h | h | h | h <;> subst h <;> decide

theorem isUuidV4_ne_empty (key : String) (h : isUuidV4 key = true) : key ≠ "" := by
  intro he
  subst he
  revert h
  decide

theorem isUuidV4_ne_proto (key : String) (h : isUuidV4 key = true) : key ≠ "__proto__" := by
  intro he
  subst he
  revert h
  decide

theorem jsGet_of_own {α : Type} (o : List (String × α)) (key : String) (v : α)
    (h : ownGet o key = some v) : jsGet o key = Slot.own v := by
  simp [jsGet, h]

theorem jsGet_of_none {α : Type} (o : List (String × α)) (key : String)
    (h : ownGet o key = none) (hn : key ∉ objectPrototypeNames) : jsGet o key = Slot.absent := by
  simp [jsGet, h, hn]

/-! ## Issuance -/

theorem incrementRequestCount_apiKeys (s s1 : State) (apiKey : String) (saveOk : Bool)
    (h : incrementRequestCount s apiKey saveOk = Completion.returned s1) :
    s1.apiKeys = s.apiKeys := by
  unfold incrementRequestCount at h
  split at h
  · split at h
    · cases h
    · cases h; rfl
  · cases h; rfl

theorem stateAfter_apiKeys (s : State) (apiKey : String) (saveOk : Bool) :
    ((incrementRequestCount s apiKey saveOk).stateAfter s).apiKeys = s.apiKeys := by
  cases h : incrementRequestCount s apiKey saveOk with
  | returned s1 => exact incrementRequestCount_apiKeys s s1 apiKey saveOk h
  | thrown m => rfl

theorem gate_apiKeys (s : State) (queryKey bodyKey : JsVal) (saveOk : Bool) :
    (gate s queryKey bodyKey saveOk).2.apiKeys = s.apiKeys := by
  unfold gate
  split
  · cases h : incrementRequestCount s (requestKey queryKey bodyKey).toPropertyKey saveOk with
    | returned s1 => exact incrementRequestCount_apiKeys s s1 _ saveOk h
    | thrown m => rfl
  · rfl

/-- State of `apiKeys` after `generateApiKey`, by the branch taken. -/
theorem generateApiKey_apiKeys (s : State) (email fresh : String) (keysOk countsOk : Bool) :
    (generateApiKey s email fresh keysOk countsOk).2.apiKeys =
      if validateEmail email && !truthyKey (jsGet s.apiKeys email)
      then jsSet s.apiKeys email fresh else s.apiKeys := by
  unfold generateApiKey
  by_cases hv : validateEmail email = true
  · by_cases ht : truthyKey (jsGet s.apiKeys email) = true
    · simp [hv, ht]
    · simp only [Bool.not_eq_true] at ht
      cases keysOk <;> cases countsOk <;> simp [hv, ht, saveApiKeys, saveRequestCounts]
  · simp only [Bool.not_eq_true] at hv
    simp [hv]

/-- An email bound to a non-empty key stays bound to it through any operation. -/
theorem step_keeps_binding (s : State) (op : Op) (email key : String)
    (h : ownGet s.apiKeys email = some key) (hk : key ≠ "") :
    ownGet (step s op).apiKeys email = some key := by
  cases op with
  | issue e fresh keysOk countsOk =>
    simp only [step, generateApiKey_apiKeys]
    split
    · next hc =>
      have hne : e ≠ email := by
        intro he
        subst he
        simp [jsGet, h, truthyKey, hk] at hc
      rw [ownGet_jsSet_ne _ _ _ _ hne]
      exact h
    · exact h
  | increment apiKey saveOk =>
    simp only [step, stateAfter_apiKeys]
    exact h
  | request queryKey bodyKey saveOk =>
    simp only [step, gate_apiKeys]
    exact h

theorem run_keeps_binding (ops : List Op) (s : State) (email key : String)
    (h : ownGet s.apiKeys email = some key) (hk : key ≠ "") :
    ownGet (run s ops).apiKeys email = some key := by
  induction ops generalizing s with
  | nil => exact h
  | cons op rest ih =>
    simp only [run, List.foldl_cons]
    exact ih (step s op) (step_keeps_binding s op email key h hk)

/-- What a returned key tells about the state left by `generateApiKey`. -/
theorem generateApiKey_key_bound (s s1 : State) (email fresh : String) (keysOk countsOk : Bool)
    (value : Slot String) (hu : isUuidV4 fresh = true)
    (h : generateApiKey s email fresh keysOk countsOk = (IssueCallback.key value, s1)) :
    validateEmail email = true ∧
      ∃ key, value = Slot.own key ∧ key ≠ "" ∧ ownGet s1.apiKeys email = some key := by
  unfold generateApiKey at h
  by_cases hv : validateEmail email = true
  · refine ⟨hv, ?_⟩
    have hni := validateEmail_not_inherited email hv
    by_cases ht : truthyKey (jsGet s.apiKeys email) = true
    · simp only [hv, ht, Bool.not_true, if_true, Bool.false_eq_true, if_false, Prod.mk.injEq,
        IssueCallback.key.injEq] at h
      obtain ⟨h1, h2⟩ := h
      subst h2
      cases hg : ownGet s.apiKeys email with
      | none => simp [jsGet, hg, hni, truthyKey] at ht
      | some key =>
        refine ⟨key, ?_, ?_, rfl⟩
        · rw [← h1]; simp [jsGet, hg]
        · simpa [jsGet, hg, truthyKey] using ht
    · simp only [Bool.not_eq_true] at ht
      cases keysOk <;> cases countsOk <;>
        simp [hv, ht, saveApiKeys, saveRequestCounts] at h
      obtain ⟨h1, h2⟩ := h
      subst h2
      refine ⟨fresh, h1.symm, isUuidV4_ne_empty fresh hu, ?_⟩
      have hne : email ≠ "__proto__" := by
        intro he
        apply hni
        subst he
        decide
      exact ownGet_jsSet_self _ _ _ hne
  · simp only [Bool.not_eq_true] at hv
    simp [hv] at h

/-- C1. Issuance is idempotent: once `generateApiKey` has handed the key `value` for `email`
to its callback (the generated key being a `uuid.v4()` result), every later `generateApiKey`
for `email` hands over the same `value`, whatever issue, increment and gate operations `ops`
ran in between and whatever `uuid.v4()` and the writes would yield. -/
theorem generateApiKey_idempotent (s s1 : State) (email fresh : String)
    (keysOk countsOk : Bool) (value : Slot String) (hu : isUuidV4 fresh = true)
    (h : generateApiKey s email fresh keysOk countsOk = (IssueCallback.key value, s1))
    (ops : List Op) (fresh2 : String) (keysOk2 countsOk2 : Bool) :
    generateApiKey (run s1 ops) email fresh2 keysOk2 countsOk2 =
      (IssueCallback.key value, run s1 ops) := by
  obtain ⟨hv, key, hval, hne, hget⟩ :=
    generateApiKey_key_bound s s1 email fresh keysOk countsOk value hu h
  have hrun := run_keeps_binding ops s1 email key hget hne
  subst hval
  unfold generateApiKey
  simp [hv, jsGet, hrun, truthyKey, hne]

/-- C1, at an instance: a key issued for `a@b.com`, then another issue and two requests. -/
theorem generateApiKey_idempotent_witness :
    generateApiKey
        (run (generateApiKey State.empty "a@b.com" "34e9062a-2544-4659-baed-76092a85e779"
          true true).2
          [Op.issue "c@d.org" "0f8fad5b-d9cb-469f-a165-70867728950e" true false,
           Op.increment "34e9062a-2544-4659-baed-76092a85e779" true])
        "a@b.com" "7c9e6679-7425-40de-944b-e07fc1f90ae7" true true =
      (IssueCallback.key (Slot.own "34e9062a-2544-4659-baed-76092a85e779"),
       run (generateApiKey State.empty "a@b.com" "34e9062a-2544-4659-baed-76092a85e779"
          true true).2
          [Op.issue "c@d.org" "0f8fad5b-d9cb-469f-a165-70867728950e" true false,
           Op.increment "34e9062a-2544-4659-baed-76092a85e779" true]) :=
  generateApiKey_idempotent State.empty _ "a@b.com" "34e9062a-2544-4659-baed-76092a85e779"
    true true (Slot.own "34e9062a-2544-4659-baed-76092a85e779") (by decide) (by decide) _ _ _ _

/-- C4. For an input that `validateEmail` rejects, `generateApiKey` hands the error
`Invalid email address` to its callback and no key, and leaves the whole state as it was: the
key map, the count map, both files and the number of writes issued. -/
theorem generateApiKey_invalid_email (s : State) (email fresh : String)
    (keysOk countsOk : Bool) (h : validateEmail email = false) :
    generateApiKey s email fresh keysOk countsOk =
      (IssueCallback.err (JsError.message "Invalid email address"), s) := by
  simp [generateApiKey, h]

/-- C4, at an instance: the input `not-an-email` on a store holding one key. -/
theorem generateApiKey_invalid_email_witness :
    validateEmail "not-an-email" = false ∧
    generateApiKey (generateApiKey State.empty "a@b.com"
        "34e9062a-2544-4659-baed-76092a85e779" true true).2 "not-an-email"
        "0f8fad5b-d9cb-469f-a165-70867728950e" true true =
      (IssueCallback.err (JsError.message "Invalid email address"),
       (generateApiKey State.empty "a@b.com"
        "34e9062a-2544-4659-baed-76092a85e779" true true).2) :=
  ⟨by decide, generateApiKey_invalid_email _ _ _ _ _ (by decide)⟩

/-! ## Request counting -/

/-- A call on a key whose entry is the number `n`. -/
theorem incrementRequestCount_num (s : State) (apiKey : String) (saveOk : Bool) (n : Nat)
    (h : ownGet s.requestCounts apiKey = some (Count.num n)) :
    incrementRequestCount s apiKey saveOk =
      if MAX_REQUESTS ≤ n then Completion.thrown "Too Many Requests"
      else Completion.returned (saveRequestCounts
        { s with requestCounts := jsSet s.requestCounts apiKey (Count.num (n + 1)) } saveOk) := by
  unfold incrementRequestCount
  simp only [jsGet, h, isDefined, atLimit, incremented, if_true, decide_eq_true_eq]

/-- A call on a key that has no entry and is not an inherited name does nothing. -/
theorem incrementRequestCount_absent (s : State) (apiKey : String) (saveOk : Bool)
    (h : ownGet s.requestCounts apiKey = none) (hn : apiKey ∉ objectPrototypeNames) :
    incrementRequestCount s apiKey saveOk = Completion.returned s := by
  unfold incrementRequestCount
  simp [jsGet, h, hn, isDefined]

/-- The count map after a call is the old one, or the old one with the entry rewritten. -/
theorem stateAfter_requestCounts (s : State) (apiKey : String) (saveOk : Bool) :
    ((incrementRequestCount s apiKey saveOk).stateAfter s).requestCounts = s.requestCounts ∨
    ((incrementRequestCount s apiKey saveOk).stateAfter s).requestCounts =
      jsSet s.requestCounts apiKey (incremented (jsGet s.requestCounts apiKey)) := by
  unfold incrementRequestCount
  split
  · split
    · exact Or.inl rfl
    · exact Or.inr rfl
  · exact Or.inl rfl

/-- Rewriting the entry of `apiKey` by `++` lowers no entry. -/
theorem ownGet_incremented (counts : List (String × Count)) (apiKey key : String) (c : Count)
    (h : ownGet counts key = some c) :
    ∃ c2, ownGet (jsSet counts apiKey (incremented (jsGet counts apiKey))) key = some c2 ∧
      Count.notBelow c c2 = true ∧ (∀ n, c = Count.num n → ∃ m, c2 = Count.num m) := by
  by_cases hk : apiKey = key
  · subst hk
    rw [ownGet_jsSet_own _ _ _ _ h, jsGet_of_own _ _ _ h]
    refine ⟨_, rfl, ?_, ?_⟩
    · cases c <;> simp [incremented, Count.notBelow]
    · intro n hn
      subst hn
      exact ⟨n + 1, rfl⟩
  · rw [ownGet_jsSet_ne _ _ _ _ hk]
    refine ⟨c, h, ?_, fun n hn => ⟨n, hn⟩⟩
    cases c <;> simp [Count.notBelow]

/-- Counts after `n` further calls on a key whose entry is a number. -/
theorem run_increment_count (saves : List Bool) (s : State) (apiKey : String) (n : Nat)
    (h : ownGet s.requestCounts apiKey = some (Count.num n)) (hn : n ≤ MAX_REQUESTS) :
    ownGet (run s (saves.map (Op.increment apiKey))).requestCounts apiKey =
      some (Count.num (min (n + saves.length) MAX_REQUESTS)) := by
  induction saves generalizing s n with
  | nil => simp [run, h, hn]
  | cons w rest ih =>
    simp only [List.map_cons, run, List.foldl_cons, List.length_cons]
    by_cases hlim : MAX_REQUESTS ≤ n
    · have hs : step s (Op.increment apiKey w) = s := by
        simp [step, incrementRequestCount_num s apiKey w n h, hlim, Completion.stateAfter]
      rw [hs]
      have := ih s n h hn
      simp only [run] at this
      rw [this]
      have h1 : n = MAX_REQUESTS := le_antisymm hn hlim
      subst h1
      simp
    · have hs : ownGet (step s (Op.increment apiKey w)).requestCounts apiKey =
          some (Count.num (n + 1)) := by
        simp only [step, incrementRequestCount_num s apiKey w n h, hlim, if_false,
          Completion.stateAfter, saveRequestCounts]
        exact ownGet_jsSet_own _ _ _ _ h
      have := ih (step s (Op.increment apiKey w)) (n + 1) hs (by omega)
      simp only [run] at this
      rw [this]
      congr 2
      omega

/-- The count map after `generateApiKey` took the generating branch. -/
theorem generateApiKey_requestCounts (s : State) (email fresh : String)
    (keysOk countsOk : Bool) :
    (generateApiKey s email fresh keysOk countsOk).2.requestCounts =
      if validateEmail email && !truthyKey (jsGet s.apiKeys email)
      then jsSet s.requestCounts fresh (Count.num 0) else s.requestCounts := by
  unfold generateApiKey
  by_cases hv : validateEmail email = true
  · by_cases ht : truthyKey (jsGet s.apiKeys email) = true
    · simp [hv, ht]
    · simp only [Bool.not_eq_true] at ht
      cases keysOk <;> cases countsOk <;> simp [hv, ht, saveApiKeys, saveRequestCounts]
  · simp only [Bool.not_eq_true] at hv
    simp [hv]

/-- C2. Let `key` be freshly issued: `generateApiKey` generated it (a `uuid.v4()` result) for
a valid email that had no key. Its count is then 0. After any number `saves.length` of calls
`incrementRequestCount(key)` its count is `min saves.length MAX_REQUESTS`, so each of the first
`MAX_REQUESTS` calls raised it by exactly 1; the next call returns and stores one more while
fewer than `MAX_REQUESTS` calls were made, and throws `Too Many Requests` (leaving the count at
`MAX_REQUESTS`) from the `(MAX_REQUESTS+1)`-th call on. -/
theorem fresh_key_quota (s : State) (email key : String) (keysOk countsOk : Bool)
    (hv : validateEmail email = true) (hnew : truthyKey (jsGet s.apiKeys email) = false)
    (hu : isUuidV4 key = true) (saves : List Bool) (saveOk : Bool) :
    MAX_REQUESTS = 10 ∧
    ownGet (generateApiKey s email key keysOk countsOk).2.requestCounts key =
      some (Count.num 0) ∧
    ownGet (run (generateApiKey s email key keysOk countsOk).2
        (saves.map (Op.increment key))).requestCounts key =
      some (Count.num (min saves.length MAX_REQUESTS)) ∧
    (saves.length < MAX_REQUESTS → ∃ s1,
      incrementRequestCount (run (generateApiKey s email key keysOk countsOk).2
        (saves.map (Op.increment key))) key saveOk = Completion.returned s1 ∧
      ownGet s1.requestCounts key = some (Count.num (saves.length + 1))) ∧
    (MAX_REQUESTS ≤ saves.length →
      incrementRequestCount (run (generateApiKey s email key keysOk countsOk).2
        (saves.map (Op.increment key))) key saveOk = Completion.thrown "Too Many Requests" ∧
      ownGet ((incrementRequestCount (run (generateApiKey s email key keysOk countsOk).2
        (saves.map (Op.increment key))) key saveOk).stateAfter
          (run (generateApiKey s email key keysOk countsOk).2
            (saves.map (Op.increment key)))).requestCounts key =
        some (Count.num MAX_REQUESTS)) := by
  have h0 : ownGet (generateApiKey s email key keysOk countsOk).2.requestCounts key =
      some (Count.num 0) := by
    rw [generateApiKey_requestCounts]
    simp only [hv, hnew, Bool.not_false, Bool.and_self, if_true]
    exact ownGet_jsSet_self _ _ _ (isUuidV4_ne_proto key hu)
  have hrun := run_increment_count saves _ key 0 h0 (Nat.zero_le _)
  simp only [Nat.zero_add] at hrun
  refine ⟨rfl, h0, hrun, ?_, ?_⟩
  · intro hlt
    have hmin : min saves.length MAX_REQUESTS = saves.length := Nat.min_eq_left (le_of_lt hlt)
    rw [hmin] at hrun
    rw [incrementRequestCount_num _ key saveOk _ hrun]
    simp only [not_le.mpr hlt, if_false]
    exact ⟨_, rfl, ownGet_jsSet_own _ _ _ _ hrun⟩
  · intro hge
    have hmin : min saves.length MAX_REQUESTS = MAX_REQUESTS := Nat.min_eq_right hge
    rw [hmin] at hrun
    rw [incrementRequestCount_num _ key saveOk _ hrun]
    simp only [le_refl, if_true, Completion.stateAfter]
    exact ⟨trivial, hrun⟩

/-- C2, at an instance: a key issued on the empty store, after three calls. -/
theorem fresh_key_quota_witness :
    ownGet (run (generateApiKey State.empty "a@b.com" "34e9062a-2544-4659-baed-76092a85e779"
        true true).2
        ([true, false, true].map (Op.increment "34e9062a-2544-4659-baed-76092a85e779"))
      ).requestCounts "34e9062a-2544-4659-baed-76092a85e779" = some (Count.num 3) :=
  (fresh_key_quota State.empty "a@b.com" "34e9062a-2544-4659-baed-76092a85e779" true true
    (by decide) (by decide) (by decide) [true, false, true] true).2.2.1

/-! ## Consistency of the two maps along a run -/

theorem gate_state (s : State) (queryKey bodyKey : JsVal) (saveOk : Bool) :
    (gate s queryKey bodyKey saveOk).2 =
      if authenticateApiKey s (requestKey queryKey bodyKey) then
        (incrementRequestCount s (requestKey queryKey bodyKey).toPropertyKey saveOk).stateAfter s
      else s := by
  unfold gate
  split
  · cases incrementRequestCount s (requestKey queryKey bodyKey).toPropertyKey saveOk <;> rfl
  · rfl

theorem consistent_empty : Consistent State.empty := by
  intro email key h
  simp [State.empty] at h

theorem consistent_of_increment (s : State) (apiKey : String) (saveOk : Bool)
    (hc : Consistent s) : Consistent ((incrementRequestCount s apiKey saveOk).stateAfter s) := by
  intro email key hm
  rw [stateAfter_apiKeys] at hm
  obtain ⟨hv, hu, n, hn⟩ := hc email key hm
  refine ⟨hv, hu, ?_⟩
  rcases stateAfter_requestCounts s apiKey saveOk with h | h
  · rw [h]; exact ⟨n, hn⟩
  · rw [h]
    obtain ⟨c2, h2, _, h3⟩ := ownGet_incremented s.requestCounts apiKey key _ hn
    obtain ⟨m, hm2⟩ := h3 n rfl
    exact ⟨m, by rw [h2, hm2]⟩

theorem step_consistent (s : State) (op : Op) (hc : Consistent s)
    (hw : op.wellFormed = true) : Consistent (step s op) := by
  cases op with
  | issue e fresh keysOk countsOk =>
    simp only [Op.wellFormed] at hw
    intro email key hm
    simp only [step, generateApiKey_apiKeys, generateApiKey_requestCounts] at hm ⊢
    by_cases hcond : (validateEmail e && !truthyKey (jsGet s.apiKeys e)) = true
    · simp only [hcond, if_true] at hm ⊢
      have hself : ownGet (jsSet s.requestCounts fresh (Count.num 0)) fresh =
          some (Count.num 0) := ownGet_jsSet_self _ _ _ (isUuidV4_ne_proto fresh hw)
      rcases mem_jsSet _ _ _ _ hm with h1 | h1
      · obtain ⟨hv, hu, n, hn⟩ := hc email key h1
        refine ⟨hv, hu, ?_⟩
        by_cases hk : fresh = key
        · subst hk; exact ⟨0, hself⟩
        · exact ⟨n, by rw [ownGet_jsSet_ne _ _ _ _ hk]; exact hn⟩
      · simp only [Prod.mk.injEq] at h1
        obtain ⟨h2, h3⟩ := h1
        subst h2 h3
        simp only [Bool.and_eq_true] at hcond
        exact ⟨hcond.1, hw, 0, hself⟩
    · simp only [hcond, if_false] at hm ⊢
      exact hc email key hm
  | increment apiKey saveOk =>
    exact consistent_of_increment s apiKey saveOk hc
  | request queryKey bodyKey saveOk =>
    simp only [step, gate_state]
    split
    · exact consistent_of_increment s _ saveOk hc
    · exact hc

theorem run_consistent (ops : List Op) (s : State) (hc : Consistent s)
    (hw : ∀ op ∈ ops, op.wellFormed = true) : Consistent (run s ops) := by
  induction ops generalizing s with
  | nil => exact hc
  | cons op rest ih =>
    simp only [run, List.foldl_cons]
    exact ih (step s op) (step_consistent s op hc (hw op (List.mem_cons_self _ _)))
      (fun o ho => hw o (List.mem_cons_of_mem _ ho))

/-! ## Authentication -/

theorem authenticateApiKey_iff (s : State) (hc : Consistent s) (candidate : JsVal) :
    authenticateApiKey s candidate = true ↔ issuedKey s candidate := by
  unfold authenticateApiKey
  cases hf : (s.apiKeys.map Prod.fst).find?
      (fun key => strictEq (jsGet s.apiKeys key) candidate) with
  | some key =>
    have hp := List.find?_some hf
    have hmem := List.mem_of_find?_eq_some hf
    obtain ⟨p, hp1, hp2⟩ := List.mem_map.mp hmem
    obtain ⟨x, hx⟩ := mem_ownGet s.apiKeys key p.2 (by rw [← hp2]; exact hp1)
    rw [jsGet_of_own _ _ _ hx] at hp
    have hcand : candidate = JsVal.str x := by
      cases candidate <;> simp [strictEq] at hp
      rw [hp]
    have hne := isUuidV4_ne_empty x (hc key x (ownGet_mem _ _ _ hx)).2.1
    simp only [jsGet_of_own _ _ _ hx, truthyKey, bne_iff_ne, ne_eq, hne, not_false_eq_true,
      true_iff]
    exact ⟨key, x, hx, hcand⟩
  | none =>
    have hnone : ownGet s.apiKeys "undefined" = none := by
      cases hg : ownGet s.apiKeys "undefined" with
      | none => rfl
      | some x =>
        have := (hc _ _ (ownGet_mem _ _ _ hg)).1
        exact absurd this (by decide)
    have habs : jsGet s.apiKeys "undefined" = Slot.absent :=
      jsGet_of_none _ _ hnone (by decide)
    simp only [JsVal.toPropertyKey, habs, truthyKey, Bool.false_eq_true, false_iff]
    rintro ⟨email, key, hk, hcand⟩
    have hall := List.find?_eq_none.mp hf email
      (List.mem_map.mpr ⟨(email, key), ownGet_mem _ _ _ hk, rfl⟩)
    apply hall
    rw [jsGet_of_own _ _ _ hk, hcand]
    simp [strictEq]

theorem not_issuedKey_empty (s : State) (hc : Consistent s) :
    ¬ issuedKey s JsVal.undefined ∧ ¬ issuedKey s (JsVal.str "") := by
  constructor
  · rintro ⟨_, _, _, h⟩
    cases h
  · rintro ⟨email, key, hk, h⟩
    simp only [JsVal.str.injEq] at h
    subst h
    exact isUuidV4_ne_empty _ (hc email _ (ownGet_mem _ _ _ hk)).2.1 rfl

/-- C3. In every state reached from the empty store by operations whose generated keys are
`uuid.v4()` results (issue operations, and also increments and requests), and for every
candidate value, `authenticateApiKey` is true exactly when the candidate is a string equal to
the key bound to some email; for the absent candidate `undefined` and for the empty string it
is false. The embedded `authenticateApiKey` is a total function that returns only a boolean:
it cannot throw and has no state to change. -/
theorem authenticateApiKey_spec (ops : List Op) (hw : ∀ op ∈ ops, op.wellFormed = true)
    (candidate : JsVal) :
    (authenticateApiKey (run State.empty ops) candidate = true ↔
      ∃ email key, ownGet (run State.empty ops).apiKeys email = some key ∧
        candidate = JsVal.str key) ∧
    authenticateApiKey (run State.empty ops) JsVal.undefined = false ∧
    authenticateApiKey (run State.empty ops) (JsVal.str "") = false := by
  have hc := run_consistent ops State.empty consistent_empty hw
  have hne := not_issuedKey_empty _ hc
  refine ⟨authenticateApiKey_iff _ hc candidate, ?_, ?_⟩
  · rw [← Bool.not_eq_true, authenticateApiKey_iff _ hc]
    exact hne.1
  · rw [← Bool.not_eq_true, authenticateApiKey_iff _ hc]
    exact hne.2

/-- C3, at an instance: two keys issued, the second key presented. -/
theorem authenticateApiKey_spec_witness :
    authenticateApiKey (run State.empty
      [Op.issue "a@b.com" "34e9062a-2544-4659-baed-76092a85e779" true true,
       Op.issue "c@d.org" "0f8fad5b-d9cb-469f-a165-70867728950e" false true])
      (JsVal.str "0f8fad5b-d9cb-469f-a165-70867728950e") = true :=
  ((authenticateApiKey_spec
      [Op.issue "a@b.com" "34e9062a-2544-4659-baed-76092a85e779" true true,
       Op.issue "c@d.org" "0f8fad5b-d9cb-469f-a165-70867728950e" false true]
      (by decide) (JsVal.str "0f8fad5b-d9cb-469f-a165-70867728950e")).1).mpr
    ⟨"c@d.org", "0f8fad5b-d9cb-469f-a165-70867728950e", by decide, rfl⟩

/-! ## The gate -/

theorem gate_unauthenticated (s : State) (hc : Consistent s) (queryKey bodyKey : JsVal)
    (saveOk : Bool) (h : ¬ issuedKey s (requestKey queryKey bodyKey)) :
    gate s queryKey bodyKey saveOk = (GateResult.send 401 "API key is invalid", s) := by
  have ha : authenticateApiKey s (requestKey queryKey bodyKey) = false := by
    rw [← Bool.not_eq_true, authenticateApiKey_iff s hc]
    exact h
  simp [gate, ha]

theorem gate_issued (s : State) (hc : Consistent s) (queryKey bodyKey : JsVal)
    (saveOk : Bool) (key : String) (hk : requestKey queryKey bodyKey = JsVal.str key)
    (hi : issuedKey s (JsVal.str key)) :
    ∃ n, ownGet s.requestCounts key = some (Count.num n) ∧
      gate s queryKey bodyKey saveOk =
        if MAX_REQUESTS ≤ n then (GateResult.send 429 "Too Many Requests", s)
        else (GateResult.next, saveRequestCounts
          { s with requestCounts := jsSet s.requestCounts key (Count.num (n + 1)) } saveOk) := by
  have ha : authenticateApiKey s (requestKey queryKey bodyKey) = true := by
    rw [authenticateApiKey_iff s hc, hk]
    exact hi
  obtain ⟨email, key2, hget, heq⟩ := hi
  simp only [JsVal.str.injEq] at heq
  subst heq
  obtain ⟨_, _, n, hn⟩ := hc email key (ownGet_mem _ _ _ hget)
  refine ⟨n, hn, ?_⟩
  unfold gate
  rw [ha, hk]
  simp only [JsVal.toPropertyKey, if_true, incrementRequestCount_num s key saveOk n hn]
  by_cases hlim : MAX_REQUESTS ≤ n <;> simp [hlim]

/-- C7. In every state `s` reached from the empty stores by issue, gate (and increment)
operations whose generated keys are `uuid.v4()` results, and for every request, the gate gives
exactly one of three outcomes. It answers 401 exactly when the candidate is not a string equal
to an issued key, in particular when it is absent or empty. It answers 429 exactly when the
candidate is an issued key whose count is at least `MAX_REQUESTS`. It calls `next()` exactly
when the candidate is an issued key whose count is below `MAX_REQUESTS`. After a 401 or a 429
the state is unchanged; after `next()` the count of that key is one higher, every other count
and the key map are as before. -/
theorem gate_three_outcomes (ops : List Op) (hw : ∀ op ∈ ops, op.wellFormed = true)
    (s : State) (hs : s = run State.empty ops) (queryKey bodyKey : JsVal) (saveOk : Bool)
    (candidate : JsVal) (hcand : candidate = requestKey queryKey bodyKey)
    (r : GateResult × State) (hr : r = gate s queryKey bodyKey saveOk) :
    (r.1 = GateResult.send 401 "API key is invalid" ∨
      r.1 = GateResult.send 429 "Too Many Requests" ∨ r.1 = GateResult.next) ∧
    (r.1 = GateResult.send 401 "API key is invalid" ↔ ¬ issuedKey s candidate) ∧
    (candidate = JsVal.undefined ∨ candidate = JsVal.str "" →
      r.1 = GateResult.send 401 "API key is invalid") ∧
    (r.1 = GateResult.send 429 "Too Many Requests" ↔
      ∃ key n, candidate = JsVal.str key ∧ issuedKey s candidate ∧
        ownGet s.requestCounts key = some (Count.num n) ∧ MAX_REQUESTS ≤ n) ∧
    (r.1 = GateResult.next ↔
      ∃ key n, candidate = JsVal.str key ∧ issuedKey s candidate ∧
        ownGet s.requestCounts key = some (Count.num n) ∧ n < MAX_REQUESTS) ∧
    (r.1 ≠ GateResult.next → r.2 = s) ∧
    (r.1 = GateResult.next → ∃ key n, candidate = JsVal.str key ∧
        ownGet s.requestCounts key = some (Count.num n) ∧
        ownGet r.2.requestCounts key = some (Count.num (n + 1)) ∧
        (∀ other, other ≠ key → ownGet r.2.requestCounts other = ownGet s.requestCounts other) ∧
        r.2.apiKeys = s.apiKeys) := by
  have hc : Consistent s := by
    rw [hs]
    exact run_consistent ops State.empty consistent_empty hw
  have hempty := not_issuedKey_empty s hc
  by_cases hi : issuedKey s candidate
  · obtain ⟨email, key, hget, hkey⟩ := hi
    have hi2 : issuedKey s (JsVal.str key) := ⟨email, key, hget, rfl⟩
    have hi3 : issuedKey s candidate := by rw [hkey]; exact hi2
    obtain ⟨n, hn, hg⟩ := gate_issued s hc queryKey bodyKey saveOk key (by rw [← hcand, hkey]) hi2
    rw [← hr] at hg
    have huniq : ∀ key2 m, candidate = JsVal.str key2 →
        ownGet s.requestCounts key2 = some (Count.num m) → m = n := by
      intro key2 m h1 h2
      rw [hkey] at h1
      simp only [JsVal.str.injEq] at h1
      subst h1
      rw [hn] at h2
      simpa using h2.symm
    by_cases hlim : MAX_REQUESTS ≤ n
    · simp only [hlim, if_true] at hg
      rw [hg]
      refine ⟨Or.inr (Or.inl rfl), ?_, ?_, ?_, ?_, fun _ => rfl, ?_⟩
      · simp [hi3]
      · rintro (h | h)
        · exact absurd (h ▸ hi3) hempty.1
        · exact absurd (h ▸ hi3) hempty.2
      · simp only [true_iff]
        exact ⟨key, n, hkey, hi3, hn, hlim⟩
      · simp only [false_iff, reduceCtorEq]
        rintro ⟨key2, m, h1, _, h2, h3⟩
        have := huniq key2 m h1 h2
        omega
      · intro h
        cases h
    · simp only [hlim, if_false] at hg
      rw [hg]
      refine ⟨Or.inr (Or.inr rfl), ?_, ?_, ?_, ?_, fun h => absurd rfl h, ?_⟩
      · simp [hi3]
      · rintro (h | h)
        · exact absurd (h ▸ hi3) hempty.1
        · exact absurd (h ▸ hi3) hempty.2
      · simp only [false_iff, reduceCtorEq]
        rintro ⟨key2, m, h1, _, h2, h3⟩
        have := huniq key2 m h1 h2
        omega
      · simp only [true_iff]
        exact ⟨key, n, hkey, hi3, hn, by omega⟩
      · intro _
        refine ⟨key, n, hkey, hn, ?_, ?_, rfl⟩
        · simp only [saveRequestCounts]
          exact ownGet_jsSet_own _ _ _ _ hn
        · intro other hne
          simp only [saveRequestCounts]
          exact ownGet_jsSet_ne _ _ _ _ (fun h => hne h.symm)
  · have hg := gate_unauthenticated s hc queryKey bodyKey saveOk (by rw [← hcand]; exact hi)
    rw [← hr] at hg
    rw [hg]
    refine ⟨Or.inl rfl, ?_, fun _ => rfl, ?_, ?_, fun _ => rfl, ?_⟩
    · simp [hi]
    · constructor
      · intro h
        simp at h
      · rintro ⟨key2, m, _, h1, _⟩
        exact absurd h1 hi
    · simp only [false_iff, reduceCtorEq]
      rintro ⟨key2, m, _, h1, _⟩
      exact hi h1
    · intro h
      cases h

/-- C7, at an instance: a key issued and used twice, then presented in the request body. -/
theorem gate_three_outcomes_witness :
    (gate (run State.empty
      [Op.issue "a@b.com" "34e9062a-2544-4659-baed-76092a85e779" true true,
       Op.request (JsVal.str "34e9062a-2544-4659-baed-76092a85e779") JsVal.undefined true,
       Op.request (JsVal.str "34e9062a-2544-4659-baed-76092a85e779") JsVal.undefined false])
      JsVal.undefined (JsVal.str "34e9062a-2544-4659-baed-76092a85e779") true).1 =
        GateResult.next ↔
      ∃ key n, JsVal.str "34e9062a-2544-4659-baed-76092a85e779" = JsVal.str key ∧
        issuedKey (run State.empty
          [Op.issue "a@b.com" "34e9062a-2544-4659-baed-76092a85e779" true true,
           Op.request (JsVal.str "34e9062a-2544-4659-baed-76092a85e779") JsVal.undefined true,
           Op.request (JsVal.str "34e9062a-2544-4659-baed-76092a85e779") JsVal.undefined false])
          (JsVal.str "34e9062a-2544-4659-baed-76092a85e779") ∧
        ownGet (run State.empty
          [Op.issue "a@b.com" "34e9062a-2544-4659-baed-76092a85e779" true true,
           Op.request (JsVal.str "34e9062a-2544-4659-baed-76092a85e779") JsVal.undefined true,
           Op.request (JsVal.str "34e9062a-2544-4659-baed-76092a85e779") JsVal.undefined false]
          ).requestCounts key = some (Count.num n) ∧ n < MAX_REQUESTS :=
  (gate_three_outcomes
    [Op.issue "a@b.com" "34e9062a-2544-4659-baed-76092a85e779" true true,
     Op.request (JsVal.str "34e9062a-2544-4659-baed-76092a85e779") JsVal.undefined true,
     Op.request (JsVal.str "34e9062a-2544-4659-baed-76092a85e779") JsVal.undefined false]
    (by decide) _ rfl JsVal.undefined (JsVal.str "34e9062a-2544-4659-baed-76092a85e779") true
    (JsVal.str "34e9062a-2544-4659-baed-76092a85e779") (by decide) _ rfl).2.2.2.2.1

/-! ## Bounds and monotonicity of the counts -/

theorem capped_of_increment (s : State) (apiKey : String) (saveOk : Bool) (hcap : Capped s)
    (hk : apiKey ∉ objectPrototypeNames) :
    Capped ((incrementRequestCount s apiKey saveOk).stateAfter s) := by
  cases hg : ownGet s.requestCounts apiKey with
  | none =>
    rw [incrementRequestCount_absent s apiKey saveOk hg hk]
    exact hcap
  | some c =>
    obtain ⟨n, hn, hle⟩ := hcap apiKey c (ownGet_mem _ _ _ hg)
    subst hn
    rw [incrementRequestCount_num s apiKey saveOk n hg]
    by_cases hlim : MAX_REQUESTS ≤ n
    · simp only [hlim, if_true, Completion.stateAfter]
      exact hcap
    · simp only [hlim, if_false, Completion.stateAfter, saveRequestCounts]
      intro key c hm
      rcases mem_jsSet _ _ _ _ hm with h1 | h1
      · exact hcap key c h1
      · simp only [Prod.mk.injEq] at h1
        exact ⟨n + 1, h1.2, by omega⟩

/-- The cap holds along runs whose direct `incrementRequestCount` calls are on names that
objects do not inherit. -/
theorem step_capped (s : State) (op : Op) (hc : Consistent s) (hcap : Capped s)
    (hu : op.uninherited = true) : Capped (step s op) := by
  cases op with
  | issue e fresh keysOk countsOk =>
    intro key c hm
    simp only [step, generateApiKey_requestCounts] at hm
    split at hm
    · rcases mem_jsSet _ _ _ _ hm with h1 | h1
      · exact hcap key c h1
      · simp only [Prod.mk.injEq] at h1
        exact ⟨0, h1.2, Nat.zero_le _⟩
    · exact hcap key c hm
  | increment apiKey saveOk =>
    simp only [Op.uninherited, Bool.not_eq_true', decide_eq_false_iff_not] at hu
    exact capped_of_increment s apiKey saveOk hcap hu
  | request queryKey bodyKey saveOk =>
    simp only [step, gate_state]
    split
    · next ha =>
      obtain ⟨email, key, hget, hkey⟩ := (authenticateApiKey_iff s hc _).mp ha
      rw [hkey]
      exact capped_of_increment s key saveOk hcap
        (isUuidV4_not_inherited key (hc email key (ownGet_mem _ _ _ hget)).2.1)
    · exact hcap

theorem run_capped (ops : List Op) (s : State) (hc : Consistent s) (hcap : Capped s)
    (hw : ∀ op ∈ ops, op.wellFormed = true ∧ op.uninherited = true) :
    Capped (run s ops) := by
  induction ops generalizing s with
  | nil => exact hcap
  | cons op rest ih =>
    simp only [run, List.foldl_cons]
    have h1 := hw op (List.mem_cons_self _ _)
    exact ih (step s op) (step_consistent s op hc h1.1) (step_capped s op hc hcap h1.2)
      (fun o ho => hw o (List.mem_cons_of_mem _ ho))

/-- C8, at the failing input: the single call `incrementRequestCount("constructor")` on the
empty stores leaves the entry `constructor: NaN` in `requestCounts`, which is not an integer
between 0 and `MAX_REQUESTS`. -/
theorem cap_broken_by_inherited_name :
    ownGet (run State.empty [Op.increment "constructor" true]).requestCounts "constructor" =
      some Count.nan ∧
    ¬ Capped (run State.empty [Op.increment "constructor" true]) := by
  refine ⟨by decide, ?_⟩
  intro h
  obtain ⟨n, hn, _⟩ := h "constructor" Count.nan (by decide)
  cases hn

/-- C9, as the source has it. Let `key` have the entry `c`. After `incrementRequestCount` on
any key (returning or throwing), after a request through the gate, and after `generateApiKey`
whenever it does not generate `key` itself (the email is invalid, or it already has a key, or
`uuid.v4()` returns another value), `key` still has an entry, and it is not below `c`. When
`generateApiKey` generates a key for a valid email without one and `uuid.v4()` returns `key`,
the entry of `key` is reset to 0. -/
theorem count_lowered_only_on_collision (s : State) (key : String) (c : Count)
    (h : ownGet s.requestCounts key = some c) :
    (∀ email fresh keysOk countsOk,
      (fresh ≠ key ∨ validateEmail email = false ∨ truthyKey (jsGet s.apiKeys email) = true) →
      ∃ c2, ownGet (generateApiKey s email fresh keysOk countsOk).2.requestCounts key = some c2 ∧
        Count.notBelow c c2 = true) ∧
    (∀ apiKey saveOk,
      ∃ c2, ownGet ((incrementRequestCount s apiKey saveOk).stateAfter s).requestCounts key =
          some c2 ∧ Count.notBelow c c2 = true) ∧
    (∀ queryKey bodyKey saveOk,
      ∃ c2, ownGet (gate s queryKey bodyKey saveOk).2.requestCounts key = some c2 ∧
        Count.notBelow c c2 = true) ∧
    (∀ email keysOk countsOk,
      validateEmail email = true → truthyKey (jsGet s.apiKeys email) = false →
      ownGet (generateApiKey s email key keysOk countsOk).2.requestCounts key =
        some (Count.num 0)) := by
  have hrefl : Count.notBelow c c = true := by cases c <;> simp [Count.notBelow]
  have hinc : ∀ apiKey saveOk,
      ∃ c2, ownGet ((incrementRequestCount s apiKey saveOk).stateAfter s).requestCounts key =
          some c2 ∧ Count.notBelow c c2 = true := by
    intro apiKey saveOk
    rcases stateAfter_requestCounts s apiKey saveOk with h1 | h1
    · rw [h1]; exact ⟨c, h, hrefl⟩
    · rw [h1]
      obtain ⟨c2, h2, h3, _⟩ := ownGet_incremented s.requestCounts apiKey key c h
      exact ⟨c2, h2, h3⟩
  refine ⟨?_, hinc, ?_, ?_⟩
  · intro email fresh keysOk countsOk hcase
    rw [generateApiKey_requestCounts]
    split
    · next hcond =>
      simp only [Bool.and_eq_true, Bool.not_eq_true'] at hcond
      rcases hcase with hne | hv | ht
      · exact ⟨c, by rw [ownGet_jsSet_ne _ _ _ _ hne]; exact h, hrefl⟩
      · rw [hcond.1] at hv
        cases hv
      · rw [hcond.2] at ht
        cases ht
    · exact ⟨c, h, hrefl⟩
  · intro queryKey bodyKey saveOk
    rw [gate_state]
    split
    · exact hinc _ saveOk
    · exact ⟨c, h, hrefl⟩
  · intro email keysOk countsOk hv ht
    rw [generateApiKey_requestCounts]
    simp only [hv, ht, Bool.not_false, Bool.and_self, if_true]
    exact ownGet_jsSet_own _ _ _ _ h

/-- C9, at an instance: a key with count 0 is incremented. -/
theorem count_lowered_only_on_collision_witness :
    ∃ c2, ownGet ((incrementRequestCount
        (run State.empty [Op.issue "a@b.com" "34e9062a-2544-4659-baed-76092a85e779" true true])
        "34e9062a-2544-4659-baed-76092a85e779" true).stateAfter
        (run State.empty [Op.issue "a@b.com" "34e9062a-2544-4659-baed-76092a85e779" true true])
        ).requestCounts "34e9062a-2544-4659-baed-76092a85e779" = some c2 ∧
      Count.notBelow (Count.num 0) c2 = true :=
  (count_lowered_only_on_collision
    (run State.empty [Op.issue "a@b.com" "34e9062a-2544-4659-baed-76092a85e779" true true])
    "34e9062a-2544-4659-baed-76092a85e779" (Count.num 0) (by decide)).2.1
    "34e9062a-2544-4659-baed-76092a85e779" true

/-- C9, refuted as stated: a key is issued and used three times, so its count is 3; then
`generateApiKey` for another email, with `uuid.v4()` returning that same key, sets the count
of the key back to 0. -/
theorem count_reset_by_colliding_uuid :
    ownGet (run State.empty
        [Op.issue "a@b.com" "34e9062a-2544-4659-baed-76092a85e779" true true,
         Op.increment "34e9062a-2544-4659-baed-76092a85e779" true,
         Op.increment "34e9062a-2544-4659-baed-76092a85e779" true,
         Op.increment "34e9062a-2544-4659-baed-76092a85e779" true]).requestCounts
      "34e9062a-2544-4659-baed-76092a85e779" = some (Count.num 3) ∧
    ownGet (generateApiKey (run State.empty
        [Op.issue "a@b.com" "34e9062a-2544-4659-baed-76092a85e779" true true,
         Op.increment "34e9062a-2544-4659-baed-76092a85e779" true,
         Op.increment "34e9062a-2544-4659-baed-76092a85e779" true,
         Op.increment "34e9062a-2544-4659-baed-76092a85e779" true])
        "c@d.org" "34e9062a-2544-4659-baed-76092a85e779" true true).2.requestCounts
      "34e9062a-2544-4659-baed-76092a85e779" = some (Count.num 0) ∧
    Count.notBelow (Count.num 3) (Count.num 0) = false := by
  decide

/-- C10, at the failing input: `constructor` has no entry in the empty `requestCounts`, yet
`incrementRequestCount("constructor")` creates the entry `constructor: NaN` and issues a
write of the count file. -/
theorem increment_inherited_name_mutates :
    ownGet State.empty.requestCounts "constructor" = none ∧
    incrementRequestCount State.empty "constructor" true =
      Completion.returned
        { apiKeys := []
          requestCounts := [("constructor", Count.nan)]
          apiKeysFile := none
          requestCountsFile := some [("constructor", none)]
          writesIssued := 1 } := by
  decide

/-! ## Persistence and startup -/

/-- C5, at the failing input: the first `generateApiKey("a@b.com")` fails to write the key
file and reports the error; the second call returns the key kept in memory although neither
file holds it. -/
theorem key_returned_without_record :
    (generateApiKey State.empty "a@b.com" "34e9062a-2544-4659-baed-76092a85e779"
      false true).1 = IssueCallback.err JsError.writeFailed ∧
    (generateApiKey
      (generateApiKey State.empty "a@b.com" "34e9062a-2544-4659-baed-76092a85e779"
        false true).2
      "a@b.com" "0f8fad5b-d9cb-469f-a165-70867728950e" true true).1 =
        IssueCallback.key (Slot.own "34e9062a-2544-4659-baed-76092a85e779") ∧
    (generateApiKey
      (generateApiKey State.empty "a@b.com" "34e9062a-2544-4659-baed-76092a85e779"
        false true).2
      "a@b.com" "0f8fad5b-d9cb-469f-a165-70867728950e" true true).2.apiKeysFile = none ∧
    (generateApiKey
      (generateApiKey State.empty "a@b.com" "34e9062a-2544-4659-baed-76092a85e779"
        false true).2
      "a@b.com" "0f8fad5b-d9cb-469f-a165-70867728950e" true true).2.requestCountsFile =
        none := by
  decide

/-- A loaded key without an entry in `requestCounts` passes the gate and leaves the state as
it was. -/
theorem gate_without_count (s : State) (hc : ∀ email key, (email, key) ∈ s.apiKeys →
      validateEmail email = true ∧ isUuidV4 key = true)
    (email key : String) (hget : ownGet s.apiKeys email = some key)
    (hnone : ownGet s.requestCounts key = none) (saveOk : Bool) :
    gate s (JsVal.str key) JsVal.undefined saveOk = (GateResult.next, s) := by
  have hu := (hc email key (ownGet_mem _ _ _ hget)).2
  have hne := isUuidV4_ne_empty key hu
  have hreq : requestKey (JsVal.str key) JsVal.undefined = JsVal.str key := by
    simp [requestKey, JsVal.truthy, hne]
  have ha : authenticateApiKey s (JsVal.str key) = true := by
    unfold authenticateApiKey
    cases hf : (s.apiKeys.map Prod.fst).find?
        (fun k => strictEq (jsGet s.apiKeys k) (JsVal.str key)) with
    | some k =>
      have hp := List.find?_some hf
      have hmem := List.mem_of_find?_eq_some hf
      obtain ⟨p, hp1, hp2⟩ := List.mem_map.mp hmem
      obtain ⟨x, hx⟩ := mem_ownGet s.apiKeys k p.2 (by rw [← hp2]; exact hp1)
      rw [jsGet_of_own _ _ _ hx] at hp
      simp only [strictEq, beq_iff_eq] at hp
      subst hp
      simp [jsGet_of_own _ _ _ hx, truthyKey, hne]
    | none =>
      have hall := List.find?_eq_none.mp hf email
        (List.mem_map.mpr ⟨(email, key), ownGet_mem _ _ _ hget, rfl⟩)
      rw [jsGet_of_own _ _ _ hget] at hall
      simp [strictEq] at hall
  unfold gate
  rw [hreq, ha]
  simp only [JsVal.toPropertyKey, if_true,
    incrementRequestCount_absent s key saveOk hnone (isUuidV4_not_inherited key hu)]

/-- C6, at the failing input: after a startup that loads one key and finds no count file,
the gate passes the eleventh request carrying that key (as it passed the ten before), and
the key still has no count. -/
theorem unlimited_after_startup_without_counts :
    ∃ s, startup (some [("a@b.com", "34e9062a-2544-4659-baed-76092a85e779")]) none = some s ∧
      run s (List.replicate 10
        (Op.request (JsVal.str "34e9062a-2544-4659-baed-76092a85e779") JsVal.undefined true))
        = s ∧
      gate s (JsVal.str "34e9062a-2544-4659-baed-76092a85e779") JsVal.undefined true =
        (GateResult.next, s) ∧
      ownGet s.requestCounts "34e9062a-2544-4659-baed-76092a85e779" = none := by
  refine ⟨_, rfl, ?_, ?_, by decide⟩
  · decide
  · decide

/-! ## The shape accepted by `validateEmail` -/

theorem char_eq_iff_toNat (c : Char) (n : Nat) (d : Char) (hd : d = Char.ofNat n)
    (hn : d.toNat = n) : c = d ↔ c.toNat = n := by
  constructor
  · intro h; subst h; exact hn
  · intro h
    have := Char.ofNat_toNat c
    rw [h] at this
    rw [hd]
    exact this.symm

theorem char_eq_dot (c : Char) : c = '.' ↔ c.toNat = 46 :=
  char_eq_iff_toNat c 46 '.' rfl rfl

theorem char_eq_at (c : Char) : c = '@' ↔ c.toNat = 64 :=
  char_eq_iff_toNat c 64 '@' rfl rfl

theorem isAtomChar_eq (c : Char) :
    isAtomChar c = (localPartChar c && !decide (c = '.') && !decide (c = '@')) := by
  have h1 := char_eq_dot c
  have h2 := char_eq_at c
  by_cases hd : c = '.'
  · subst hd; decide
  · by_cases ha : c = '@'
    · subst ha; decide
    · have hd2 : c.toNat ≠ 46 := fun h => hd (h1.mpr h)
      have ha2 : c.toNat ≠ 64 := fun h => ha (h2.mpr h)
      simp [isAtomChar, localPartChar, excludedCodes, listedSpecialCodes, hd, ha, hd2, ha2]

theorem matchDotAtom_eq (l : List Char) (inAtom : Bool) :
    matchDotAtom inAtom l =
      match textBeforeAt l with
      | some loc => shapeFrom inAtom loc
      | none => false := by
  induction l generalizing inAtom with
  | nil => simp [matchDotAtom, textBeforeAt]
  | cons c cs ih =>
    by_cases ha : c = '@'
    · subst ha
      have : isAtomChar '@' = false := by decide
      simp [matchDotAtom, textBeforeAt, this, shapeFrom]
    · by_cases hd : c = '.'
      · subst hd
        have : isAtomChar '.' = false := by decide
        simp only [matchDotAtom, this, textBeforeAt, ha, if_false, if_true, Bool.false_eq_true]
        rw [ih false]
        cases textBeforeAt cs <;> simp [shapeFrom]
      · have hatom := isAtomChar_eq c
        simp only [hd, ha, decide_False, Bool.not_false, Bool.and_true] at hatom
        simp only [matchDotAtom, hatom, textBeforeAt, ha, hd, if_false]
        by_cases hl : localPartChar c = true
        · simp only [hl, if_true]
          rw [ih true]
          cases textBeforeAt cs <;> simp [shapeFrom, hd, hl]
        · simp only [Bool.not_eq_true] at hl
          simp only [hl, Bool.false_eq_true, if_false]
          cases textBeforeAt cs <;> simp [shapeFrom, hd, hl]

theorem shapeFrom_eq (loc : List Char) (inAtom : Bool) :
    shapeFrom inAtom loc =
      (loc.all localPartChar && (inAtom || (!loc.isEmpty && loc.head? != some '.')) &&
        loc.getLast? != some '.' && !hasConsecutiveDots loc) := by
  induction loc generalizing inAtom with
  | nil => cases inAtom <;> simp [shapeFrom, hasConsecutiveDots]
  | cons c cs ih =>
    have hdot : localPartChar '.' = true := by decide
    have hb : ∀ x : Char, x ≠ '.' → (some x != some '.') = true := by
      intro x hx
      rw [bne_iff_ne]
      exact fun h => hx (Option.some.inj h)
    have hnone : ((none : Option Char) != some '.') = true := by decide
    by_cases hd : c = '.'
    · subst hd
      simp only [shapeFrom, if_true, ih false]
      cases cs with
      | nil => cases inAtom <;> simp [hasConsecutiveDots]
      | cons d ds =>
        by_cases hd2 : d = '.'
        · subst hd2
          cases inAtom <;> simp [hasConsecutiveDots, hdot]
        · cases inAtom <;>
            simp [hasConsecutiveDots, hdot, hd2, List.getLast?_cons_cons, hb d hd2]
    · simp only [shapeFrom, hd, if_false, ih true]
      cases cs with
      | nil => cases inAtom <;> simp [hasConsecutiveDots, hd, hb c hd, hnone]
      | cons d ds =>
        cases inAtom <;>
          simp [hasConsecutiveDots, hd, List.getLast?_cons_cons, Bool.and_assoc, hb c hd]

theorem matchQuoted_false (l : List Char) (h : l.head?.map Char.toNat ≠ some 34) :
    matchQuoted l = false := by
  cases l with
  | nil => rfl
  | cons c cs =>
    simp only [List.head?_cons, Option.map_some', ne_eq, Option.some.injEq] at h
    simp [matchQuoted, h]

theorem textBeforeAt_eq_some (l loc : List Char) :
    textBeforeAt l = some loc ↔ ∃ rest, l = loc ++ '@' :: rest ∧ '@' ∉ loc := by
  induction l generalizing loc with
  | nil => simp [textBeforeAt]
  | cons c cs ih =>
    by_cases ha : c = '@'
    · subst ha
      simp only [textBeforeAt, if_true, Option.some.injEq]
      constructor
      · intro h
        subst h
        exact ⟨cs, rfl, by simp⟩
      · rintro ⟨rest, h1, h2⟩
        cases loc with
        | nil => rfl
        | cons d ds =>
          simp only [List.cons_append, List.cons.injEq] at h1
          exact absurd (by simp [← h1.1]) h2
    · simp only [textBeforeAt, ha, if_false, Option.map_eq_some']
      constructor
      · rintro ⟨loc2, h1, h2⟩
        obtain ⟨rest, h3, h4⟩ := (ih loc2).mp h1
        subst h2
        refine ⟨rest, by simp [h3], ?_⟩
        simp only [List.mem_cons, not_or]
        exact ⟨fun h => ha h.symm, h4⟩
      · rintro ⟨rest, h1, h2⟩
        cases loc with
        | nil =>
          simp only [List.nil_append, List.cons.injEq] at h1
          exact absurd h1.1 ha
        | cons d ds =>
          simp only [List.cons_append, List.cons.injEq] at h1
          simp only [List.mem_cons, not_or] at h2
          refine ⟨ds, (ih ds).mpr ⟨rest, h1.2, h2.2⟩, ?_⟩
          rw [h1.1]

/-- C11. For every input that does not begin with a double quote, `validateEmail` is true
exactly when the input contains `@` and the text `loc` before the first `@` is non-empty,
contains none of the characters `<`, `>`, `(`, `)`, `[`, `]`, backslash, `,`, `;`, `:`, double
quote and no whitespace, and has no leading, trailing or consecutive dots; this is the value
of `describedValid`, written after that description. -/
theorem validateEmail_unquoted (email : String)
    (h : email.data.head?.map Char.toNat ≠ some 34) :
    validateEmail email = describedValid email ∧
    (validateEmail email = true ↔
      ∃ loc rest, email.data = loc ++ '@' :: rest ∧ '@' ∉ loc ∧ loc ≠ [] ∧
        (∀ c ∈ loc, c.toNat ∉ listedSpecialCodes ∧ isJsWhitespace c = false) ∧
        loc.head? ≠ some '.' ∧ loc.getLast? ≠ some '.' ∧ hasConsecutiveDots loc = false) := by
  have h1 : validateEmail email = describedValid email := by
    unfold validateEmail describedValid
    rw [matchQuoted_false _ h, Bool.or_false, matchDotAtom_eq]
    cases textBeforeAt email.data with
    | none => rfl
    | some loc =>
      simp only [shapeFrom_eq, localPartShape, Bool.false_or]
      cases loc.all localPartChar <;> cases loc.isEmpty <;> simp
  refine ⟨h1, ?_⟩
  rw [h1]
  unfold describedValid
  have key : ∀ loc : List Char, localPartShape loc = true ↔
      (loc ≠ [] ∧ (∀ c ∈ loc, c.toNat ∉ listedSpecialCodes ∧ isJsWhitespace c = false) ∧
        loc.head? ≠ some '.' ∧ loc.getLast? ≠ some '.' ∧ hasConsecutiveDots loc = false) := by
    intro loc
    simp only [localPartShape, Bool.and_eq_true, Bool.not_eq_true', List.all_eq_true,
      bne_iff_ne, ne_eq, localPartChar, decide_eq_false_iff_not]
    have he : loc.isEmpty = false ↔ loc ≠ [] := by cases loc <;> simp
    rw [he]
    tauto
  cases hb : textBeforeAt email.data with
  | none =>
    simp only [Bool.false_eq_true, false_iff]
    rintro ⟨loc, rest, h2, h3, _⟩
    have := (textBeforeAt_eq_some email.data loc).mpr ⟨rest, h2, h3⟩
    rw [hb] at this
    cases this
  | some loc =>
    simp only [key]
    constructor
    · intro h2
      obtain ⟨rest, h3, h4⟩ := (textBeforeAt_eq_some email.data loc).mp hb
      exact ⟨loc, rest, h3, h4, h2⟩
    · rintro ⟨loc2, rest, h2, h3, h4⟩
      have := (textBeforeAt_eq_some email.data loc2).mpr ⟨rest, h2, h3⟩
      rw [hb] at this
      cases this
      exact h4

/-- C11, at an instance: `first.last@example.org`. -/
theorem validateEmail_unquoted_witness :
    validateEmail "first.last@example.org" = describedValid "first.last@example.org" :=
  (validateEmail_unquoted "first.last@example.org" (by decide)).1

/-! ## What follows the `@` -/

theorem matchDotAtom_append (l t : List Char) (inAtom : Bool)
    (h : matchDotAtom inAtom l = true) : matchDotAtom inAtom (l ++ t) = true := by
  induction l generalizing inAtom with
  | nil => simp [matchDotAtom] at h
  | cons c cs ih =>
    simp only [List.cons_append, matchDotAtom] at h ⊢
    split
    · next hc => rw [if_pos hc] at h; exact ih true h
    · next hc =>
      rw [if_neg hc] at h
      split
      · next hd =>
        rw [if_pos hd] at h
        simp only [Bool.and_eq_true] at h ⊢
        exact ⟨h.1, ih false h.2⟩
      · next hd => rw [if_neg hd] at h; exact h

theorem matchDotAtom_cut (l : List Char) (inAtom : Bool)
    (h : matchDotAtom inAtom l = true) :
    ∃ p t, l = p ++ '@' :: t ∧ matchDotAtom inAtom (p ++ ['@']) = true := by
  induction l generalizing inAtom with
  | nil => simp [matchDotAtom] at h
  | cons c cs ih =>
    simp only [matchDotAtom] at h
    by_cases hc : isAtomChar c = true
    · rw [if_pos hc] at h
      obtain ⟨p, t, h1, h2⟩ := ih true h
      exact ⟨c :: p, t, by simp [h1], by simp [matchDotAtom, hc, h2]⟩
    · rw [if_neg hc] at h
      by_cases hd : c = '.'
      · rw [if_pos hd] at h
        simp only [Bool.and_eq_true] at h
        obtain ⟨p, t, h1, h2⟩ := ih false h.2
        refine ⟨c :: p, t, by simp [h1], ?_⟩
        simp only [List.cons_append, matchDotAtom]
        rw [if_neg hc, if_pos hd, h.1]
        simpa using h2
      · rw [if_neg hd] at h
        by_cases ha : c = '@'
        · rw [if_pos ha] at h
          exact ⟨[], cs, by simp [ha], by simp [matchDotAtom, h]; decide⟩
        · rw [if_neg ha] at h
          cases h

theorem matchQuotedBody_append (l t : List Char) (seen : Bool)
    (h : matchQuotedBody seen l = true) : matchQuotedBody seen (l ++ t) = true := by
  induction l generalizing seen with
  | nil => simp [matchQuotedBody] at h
  | cons c cs ih =>
    simp only [List.cons_append, matchQuotedBody, Bool.or_eq_true, Bool.and_eq_true] at h ⊢
    rcases h with ⟨⟨h1, h2⟩, h3⟩ | ⟨h1, h2⟩
    · left
      refine ⟨⟨h1, h2⟩, ?_⟩
      cases cs with
      | nil => simp at h3
      | cons d ds => simpa using h3
    · right
      exact ⟨h1, ih true h2⟩

theorem matchQuotedBody_cut (l : List Char) (seen : Bool)
    (h : matchQuotedBody seen l = true) :
    ∃ p t, l = p ++ '@' :: t ∧ matchQuotedBody seen (p ++ ['@']) = true := by
  induction l generalizing seen with
  | nil => simp [matchQuotedBody] at h
  | cons c cs ih =>
    simp only [matchQuotedBody, Bool.or_eq_true, Bool.and_eq_true] at h
    rcases h with ⟨⟨h1, h2⟩, h3⟩ | ⟨h1, h2⟩
    · cases cs with
      | nil => simp at h3
      | cons d ds =>
        simp only [List.head?_cons, decide_eq_true_eq, Option.some.injEq] at h3
        subst h3
        refine ⟨[c], ds, rfl, ?_⟩
        simp only [List.singleton_append, matchQuotedBody, Bool.or_eq_true, Bool.and_eq_true]
        left
        exact ⟨⟨h1, h2⟩, by simp⟩
    · obtain ⟨p, t, h3, h4⟩ := ih true h2
      refine ⟨c :: p, t, by simp [h3], ?_⟩
      simp only [List.cons_append, matchQuotedBody, Bool.or_eq_true, Bool.and_eq_true]
      right
      exact ⟨h1, h4⟩

theorem validateEmail_data_append (l t : List Char)
    (h : (matchDotAtom false l || matchQuoted l) = true) :
    (matchDotAtom false (l ++ t) || matchQuoted (l ++ t)) = true := by
  simp only [Bool.or_eq_true] at h ⊢
  rcases h with h | h
  · exact Or.inl (matchDotAtom_append l t false h)
  · right
    cases l with
    | nil => simp [matchQuoted] at h
    | cons c cs =>
      simp only [matchQuoted, Bool.and_eq_true, List.cons_append] at h ⊢
      exact ⟨h.1, matchQuotedBody_append cs t false h.2⟩

theorem validateEmail_data_cut (l : List Char)
    (h : (matchDotAtom false l || matchQuoted l) = true) :
    ∃ p t, l = p ++ '@' :: t ∧
      (matchDotAtom false (p ++ ['@']) || matchQuoted (p ++ ['@'])) = true := by
  simp only [Bool.or_eq_true] at h
  rcases h with h | h
  · obtain ⟨p, t, h1, h2⟩ := matchDotAtom_cut l false h
    exact ⟨p, t, h1, by simp [h2]⟩
  · cases l with
    | nil => simp [matchQuoted] at h
    | cons c cs =>
      simp only [matchQuoted, Bool.and_eq_true] at h
      obtain ⟨p, t, h1, h2⟩ := matchQuotedBody_cut cs false h.2
      refine ⟨c :: p, t, by simp [h1], ?_⟩
      simp only [List.cons_append, matchQuoted, Bool.or_eq_true, Bool.and_eq_true]
      exact Or.inr ⟨h.1, h2⟩

/-- C12, as the source has it: `validateEmail` does not look at what follows the `@`. An
input is accepted exactly when it starts with a part ending in `@` that is accepted on its
own; `a@`, in which nothing follows the `@`, is accepted; and `generateApiKey` never reports
`Invalid email address` for an accepted input. -/
theorem validateEmail_ignores_domain (email : String) :
    (validateEmail email = true ↔
      ∃ p t : String, email = p ++ "@" ++ t ∧ validateEmail (p ++ "@") = true) ∧
    validateEmail "a@" = true ∧
    (validateEmail email = true → ∀ s fresh keysOk countsOk,
      (generateApiKey s email fresh keysOk countsOk).1 ≠
        IssueCallback.err (JsError.message "Invalid email address")) := by
  refine ⟨⟨?_, ?_⟩, by decide, ?_⟩
  · intro h
    obtain ⟨p, t, h1, h2⟩ := validateEmail_data_cut email.data h
    refine ⟨String.mk p, String.mk t, ?_, ?_⟩
    · apply String.ext
      simp [h1]
    · unfold validateEmail
      simpa using h2
  · rintro ⟨p, t, h1, h2⟩
    subst h1
    unfold validateEmail at h2 ⊢
    have := validateEmail_data_append (p ++ "@").data t.data h2
    simpa using this
  · intro hv s fresh keysOk countsOk
    unfold generateApiKey
    simp only [hv, Bool.not_true, Bool.false_eq_true, if_false]
    split
    · simp
    · cases keysOk <;> cases countsOk <;> simp

/-- C12, at an instance: the accepted input `a@b.com`. -/
theorem validateEmail_ignores_domain_witness :
    (generateApiKey State.empty "a@b.com" "34e9062a-2544-4659-baed-76092a85e779" true true).1 ≠
      IssueCallback.err (JsError.message "Invalid email address") :=
  (validateEmail_ignores_domain "a@b.com").2.2 (by decide) State.empty
    "34e9062a-2544-4659-baed-76092a85e779" true true

/-- C12, refuted as stated: nothing follows the `@` in `a@`, yet `validateEmail` accepts it
and `generateApiKey` issues a key for it. -/
theorem domain_not_required :
    validateEmail "a@" = true ∧
    (generateApiKey State.empty "a@" "34e9062a-2544-4659-baed-76092a85e779" true true).1 =
      IssueCallback.key (Slot.own "34e9062a-2544-4659-baed-76092a85e779") := by
  decide

/-! ## Routing -/

theorem incrementRequestCount_thrown_iff (s : State) (apiKey : String) (saveOk : Bool) :
    (incrementRequestCount s apiKey saveOk = Completion.thrown "Too Many Requests" ↔
      atLimit (jsGet s.requestCounts apiKey) = true) ∧
    (atLimit (jsGet s.requestCounts apiKey) = false →
      ∃ s1, incrementRequestCount s apiKey saveOk = Completion.returned s1) := by
  unfold incrementRequestCount
  cases hj : jsGet s.requestCounts apiKey with
  | own c =>
    cases c with
    | num n =>
      by_cases hn : MAX_REQUESTS ≤ n <;> simp [isDefined, atLimit, hn]
    | nan => simp [isDefined, atLimit]
    | null => simp [isDefined, atLimit]
  | inherited => simp [isDefined, atLimit]
  | absent => simp [isDefined, atLimit]

theorem handleRequest_eq (s : State) (req : Request) (inp : Inputs) :
    handleRequest s req inp =
      match req.bodyError with
      | some status =>
        (some (Handler.jsonParser, { status := status, body := Body.parserError }), s)
      | none =>
        match gate s req.queryKey req.bodyKey inp.saveOk with
        | (GateResult.next, s1) =>
          (some (Handler.welcome, { status := 200, body := Body.text "Welcome" }), s1)
        | (GateResult.send status body, s1) =>
          (some (Handler.gate, { status := status, body := Body.text body }), s1) := by
  unfold handleRequest layers
  simp only [dispatch, if_true]
  cases req.bodyError with
  | some status => rfl
  | none =>
    cases hg : gate s req.queryKey req.bodyKey inp.saveOk with
    | mk r s1 => cases r <;> simp [hg]

theorem handleRequest_no_keys (s : State) (req : Request) (inp : Inputs)
    (h : s.apiKeys = []) : (handleRequest s req inp).2 = s := by
  have ha : authenticateApiKey s (requestKey req.queryKey req.bodyKey) = false := by
    have hn : "undefined" ∉ objectPrototypeNames := by decide
    simp [authenticateApiKey, h, jsGet, ownGet, JsVal.toPropertyKey, hn, truthyKey]
  rw [handleRequest_eq]
  cases req.bodyError with
  | some status => rfl
  | none => simp [gate, ha]

/-- C19, as the source has it. For every state and every request (any method and path): a
request whose body `express.json()` rejects is answered with the parser's error status before
the gate, and the state is unchanged. Every other request is answered by the gate middleware
or by the handler mounted at `/`: status 401 from the gate when the supplied key is not
authenticated, status 429 from the gate when its count is at the limit, and otherwise the body
`Welcome` from the handler mounted at `/`. No other handler answers, `apiKeys` is the same
after the request, and from the empty stores every sequence of requests leaves the empty
stores: no key is ever issued. -/
theorem handleRequest_decided (s : State) (req : Request) (inp : Inputs)
    (reqs : List (Request × Inputs)) :
    (∀ status, req.bodyError = some status →
      handleRequest s req inp =
        (some (Handler.jsonParser, { status := status, body := Body.parserError }), s)) ∧
    (req.bodyError = none →
      authenticateApiKey s (requestKey req.queryKey req.bodyKey) = false →
      handleRequest s req inp =
        (some (Handler.gate, { status := 401, body := Body.text "API key is invalid" }), s)) ∧
    (req.bodyError = none →
      authenticateApiKey s (requestKey req.queryKey req.bodyKey) = true →
      atLimit (jsGet s.requestCounts (requestKey req.queryKey req.bodyKey).toPropertyKey) = true →
      handleRequest s req inp =
        (some (Handler.gate, { status := 429, body := Body.text "Too Many Requests" }), s)) ∧
    (req.bodyError = none →
      authenticateApiKey s (requestKey req.queryKey req.bodyKey) = true →
      atLimit (jsGet s.requestCounts (requestKey req.queryKey req.bodyKey).toPropertyKey) = false →
      (handleRequest s req inp).1 =
        some (Handler.welcome, { status := 200, body := Body.text "Welcome" })) ∧
    (∃ r, (handleRequest s req inp).1 = some (Handler.jsonParser, r) ∨
      (handleRequest s req inp).1 = some (Handler.gate, r) ∨
      (handleRequest s req inp).1 = some (Handler.welcome, r)) ∧
    (handleRequest s req inp).2.apiKeys = s.apiKeys ∧
    serve State.empty reqs = State.empty := by
  have hthrow := incrementRequestCount_thrown_iff s
    (requestKey req.queryKey req.bodyKey).toPropertyKey inp.saveOk
  refine ⟨?_, ?_, ?_, ?_, ?_, ?_, ?_⟩
  · intro status hb
    rw [handleRequest_eq, hb]
  · intro hb ha
    rw [handleRequest_eq, hb]
    simp [gate, ha]
  · intro hb ha hl
    rw [handleRequest_eq, hb]
    simp [gate, ha, hthrow.1.mpr hl]
  · intro hb ha hl
    obtain ⟨s1, h1⟩ := hthrow.2 hl
    rw [handleRequest_eq, hb]
    simp [gate, ha, h1]
  · rw [handleRequest_eq]
    cases req.bodyError with
    | some status => exact ⟨_, Or.inl rfl⟩
    | none =>
      cases hg : gate s req.queryKey req.bodyKey inp.saveOk with
      | mk r s1 =>
        cases r with
        | next => exact ⟨_, Or.inr (Or.inr rfl)⟩
        | send status body => exact ⟨_, Or.inr (Or.inl rfl)⟩
  · have := gate_apiKeys s req.queryKey req.bodyKey inp.saveOk
    rw [handleRequest_eq]
    cases req.bodyError with
    | some status => rfl
    | none =>
      cases hg : gate s req.queryKey req.bodyKey inp.saveOk with
      | mk r s1 =>
        rw [hg] at this
        cases r <;> exact this
  · induction reqs with
    | nil => rfl
    | cons r rest ih =>
      simp only [serve, List.foldl_cons] at ih ⊢
      rw [handleRequest_no_keys State.empty r.1 r.2 rfl]
      exact ih

/-- C19, at an instance: with one key issued, the request
`GET /generate-api-key/c@d.org?apiKey=34e9062a-2544-4659-baed-76092a85e779` is answered
`Welcome` by the handler mounted at `/`, not by the route of issuance. -/
theorem handleRequest_decided_witness :
    (handleRequest
      (run State.empty [Op.issue "a@b.com" "34e9062a-2544-4659-baed-76092a85e779" true true])
      { method := "GET", path := ["generate-api-key", "c@d.org"], bodyError := none,
        queryKey := JsVal.str "34e9062a-2544-4659-baed-76092a85e779",
        bodyKey := JsVal.undefined }
      { saveOk := true, fresh := "0f8fad5b-d9cb-469f-a165-70867728950e",
        keysOk := true, countsOk := true }).1 =
      some (Handler.welcome, { status := 200, body := Body.text "Welcome" }) :=
  (handleRequest_decided
      (run State.empty [Op.issue "a@b.com" "34e9062a-2544-4659-baed-76092a85e779" true true])
      { method := "GET", path := ["generate-api-key", "c@d.org"], bodyError := none,
        queryKey := JsVal.str "34e9062a-2544-4659-baed-76092a85e779",
        bodyKey := JsVal.undefined }
      { saveOk := true, fresh := "0f8fad5b-d9cb-469f-a165-70867728950e",
        keysOk := true, countsOk := true } []).2.2.2.1 rfl (by decide) (by decide)

/-- C19, refuted as stated: with one key issued, a request that carries this key and a body
that `express.json()` rejects with status 400 is answered 400 before the gate; it is neither
401 nor 429 nor `Welcome`, although the key is authenticated and below its limit, and the
count of the key is not raised. -/
theorem body_rejected_before_gate :
    authenticateApiKey
      (run State.empty [Op.issue "a@b.com" "34e9062a-2544-4659-baed-76092a85e779" true true])
      (JsVal.str "34e9062a-2544-4659-baed-76092a85e779") = true ∧
    atLimit (jsGet
      (run State.empty [Op.issue "a@b.com" "34e9062a-2544-4659-baed-76092a85e779" true true]
        ).requestCounts "34e9062a-2544-4659-baed-76092a85e779") = false ∧
    handleRequest
      (run State.empty [Op.issue "a@b.com" "34e9062a-2544-4659-baed-76092a85e779" true true])
      { method := "POST", path := [], bodyError := some 400,
        queryKey := JsVal.str "34e9062a-2544-4659-baed-76092a85e779",
        bodyKey := JsVal.undefined }
      { saveOk := true, fresh := "0f8fad5b-d9cb-469f-a165-70867728950e",
        keysOk := true, countsOk := true } =
      (some (Handler.jsonParser, { status := 400, body := Body.parserError }),
        run State.empty
          [Op.issue "a@b.com" "34e9062a-2544-4659-baed-76092a85e779" true true]) := by
  decide

/-! ## Error responses -/

/-- C15, as the source has it. The route of issuance answers an invalid email with status
400 and the message `Invalid email address`, and a failed write of a new key with status 400
too, with the message of the write error. The gate answers an unauthenticated key with 401 and
a key at its limit with 429. So 400, 401 and 429 tell bad input, unauthorised and rate-limited
apart, while a persistence failure shares the status of bad input and differs from it in the
body only. -/
theorem error_statuses (s1 s2 s3 s4 : State) (bad email fresh1 fresh2 : String)
    (keysOk1 countsOk1 keysOk2 countsOk2 saveOk3 saveOk4 : Bool)
    (query3 body3 query4 body4 : JsVal)
    (h1 : validateEmail bad = false)
    (h2 : validateEmail email = true) (h2a : truthyKey (jsGet s2.apiKeys email) = false)
    (h2b : (keysOk2 && countsOk2) = false)
    (h3 : authenticateApiKey s3 (requestKey query3 body3) = false)
    (h4 : authenticateApiKey s4 (requestKey query4 body4) = true)
    (h4a : atLimit (jsGet s4.requestCounts (requestKey query4 body4).toPropertyKey) = true) :
    (generateApiKeyRoute s1 bad fresh1 keysOk1 countsOk1).1 =
      { status := 400, body := Body.errorMessage (JsError.message "Invalid email address") } ∧
    (generateApiKeyRoute s2 email fresh2 keysOk2 countsOk2).1 =
      { status := 400, body := Body.errorMessage JsError.writeFailed } ∧
    (gate s3 query3 body3 saveOk3).1 = GateResult.send 401 "API key is invalid" ∧
    (gate s4 query4 body4 saveOk4).1 = GateResult.send 429 "Too Many Requests" ∧
    (generateApiKeyRoute s1 bad fresh1 keysOk1 countsOk1).1.status =
      (generateApiKeyRoute s2 email fresh2 keysOk2 countsOk2).1.status ∧
    (generateApiKeyRoute s1 bad fresh1 keysOk1 countsOk1).1.body ≠
      (generateApiKeyRoute s2 email fresh2 keysOk2 countsOk2).1.body := by
  have e1 : (generateApiKeyRoute s1 bad fresh1 keysOk1 countsOk1).1 =
      { status := 400, body := Body.errorMessage (JsError.message "Invalid email address") } := by
    simp [generateApiKeyRoute, generateApiKey, h1]
  have e2 : (generateApiKeyRoute s2 email fresh2 keysOk2 countsOk2).1 =
      { status := 400, body := Body.errorMessage JsError.writeFailed } := by
    unfold generateApiKeyRoute generateApiKey
    cases keysOk2 <;> cases countsOk2 <;> simp [h2, h2a] at h2b ⊢
  refine ⟨e1, e2, ?_, ?_, ?_, ?_⟩
  · simp [gate, h3]
  · simp [gate, h4, (incrementRequestCount_thrown_iff s4 _ saveOk4).1.mpr h4a]
  · rw [e1, e2]
  · rw [e1, e2]
    simp

/-- C15, at an instance: the four error responses on small stores. -/
theorem error_statuses_witness :
    (generateApiKeyRoute State.empty "not-an-email" "34e9062a-2544-4659-baed-76092a85e779"
      true true).1.status =
    (generateApiKeyRoute State.empty "a@b.com" "34e9062a-2544-4659-baed-76092a85e779"
      false true).1.status :=
  (error_statuses State.empty State.empty State.empty
    { apiKeys := [("a@b.com", "34e9062a-2544-4659-baed-76092a85e779")]
      requestCounts := [("34e9062a-2544-4659-baed-76092a85e779", Count.num 10)]
      apiKeysFile := none, requestCountsFile := none, writesIssued := 0 }
    "not-an-email" "a@b.com" "34e9062a-2544-4659-baed-76092a85e779"
    "34e9062a-2544-4659-baed-76092a85e779" true true false true true true
    JsVal.undefined JsVal.undefined (JsVal.str "34e9062a-2544-4659-baed-76092a85e779")
    JsVal.undefined (by decide) (by decide) (by decide) (by decide) (by decide) (by decide)
    (by decide)).2.2.2.2.1

/-- C15, refuted as stated: an invalid email and a failed write of the key file during
issuance both produce status 400. -/
theorem invalid_email_and_write_failure_share_status :
    (generateApiKeyRoute State.empty "not-an-email" "34e9062a-2544-4659-baed-76092a85e779"
      true true).1.status = 400 ∧
    (generateApiKeyRoute State.empty "a@b.com" "34e9062a-2544-4659-baed-76092a85e779"
      false true).1 = { status := 400, body := Body.errorMessage JsError.writeFailed } := by
  decide

/-! ## The request-count lookup -/

/-- For a name that objects do not inherit the lookup gives a number: the stored one, or 0
when there is no entry. -/
theorem requestCountOf_uninherited (s : State) (apiKey : String)
    (hn : apiKey ∉ objectPrototypeNames) :
    ∃ n, requestCountOf s apiKey = Slot.own (Count.num n) ∧
      (∀ m, ownGet s.requestCounts apiKey = some (Count.num m) → n = m) ∧
      (ownGet s.requestCounts apiKey = none → n = 0) := by
  unfold requestCountOf
  cases hg : ownGet s.requestCounts apiKey with
  | none =>
    rw [jsGet_of_none _ _ hg hn]
    exact ⟨0, by simp [truthyCount], by simp, fun _ => rfl⟩
  | some c =>
    rw [jsGet_of_own _ _ _ hg]
    cases c with
    | num m =>
      by_cases hm : m = 0
      · subst hm
        exact ⟨0, by simp [truthyCount], by simp, by simp⟩
      · exact ⟨m, by simp [truthyCount, hm], by simp, by simp⟩
    | nan => exact ⟨0, by simp [truthyCount], by simp, by simp⟩
    | null => exact ⟨0, by simp [truthyCount], by simp, by simp⟩

/-- C14, at the failing input: `constructor` has no entry in the empty `requestCounts`, yet
`requestCounts["constructor"] || 0` is the function inherited from `Object.prototype`, not the
number 0. -/
theorem requestCount_of_inherited_name :
    ownGet State.empty.requestCounts "constructor" = none ∧
    requestCountOf State.empty "constructor" = Slot.inherited ∧
    requestCountOf State.empty "constructor" ≠ Slot.own (Count.num 0) := by
  decide

/-! ## Key records -/

/-- C17. A key record is never changed or removed by a single step. Let `email` be bound to
the non-empty `key` (the source's own test for an email having a key is the truthiness of
`apiKeys[email]`). After `generateApiKey` for any email, valid or not, with any `uuid.v4()`
value and any write outcomes, after `incrementRequestCount` on any key, returning or throwing,
and after a request through the gate, `email` is still bound to `key`. -/
theorem apiKey_record_kept (s : State) (email key : String)
    (h : ownGet s.apiKeys email = some key) (hk : key ≠ "") :
    (∀ other fresh keysOk countsOk,
      ownGet (generateApiKey s other fresh keysOk countsOk).2.apiKeys email = some key) ∧
    (∀ apiKey saveOk,
      ownGet ((incrementRequestCount s apiKey saveOk).stateAfter s).apiKeys email = some key) ∧
    (∀ queryKey bodyKey saveOk,
      ownGet (gate s queryKey bodyKey saveOk).2.apiKeys email = some key) :=
  ⟨fun other fresh keysOk countsOk =>
      step_keeps_binding s (Op.issue other fresh keysOk countsOk) email key h hk,
   fun apiKey saveOk => step_keeps_binding s (Op.increment apiKey saveOk) email key h hk,
   fun queryKey bodyKey saveOk =>
      step_keeps_binding s (Op.request queryKey bodyKey saveOk) email key h hk⟩

/-- C17, at an instance: issuing for the same email again with a failing write. -/
theorem apiKey_record_kept_witness :
    ownGet (generateApiKey
        (run State.empty [Op.issue "a@b.com" "34e9062a-2544-4659-baed-76092a85e779" true true])
        "a@b.com" "0f8fad5b-d9cb-469f-a165-70867728950e" false false).2.apiKeys "a@b.com" =
      some "34e9062a-2544-4659-baed-76092a85e779" :=
  (apiKey_record_kept
    (run State.empty [Op.issue "a@b.com" "34e9062a-2544-4659-baed-76092a85e779" true true])
    "a@b.com" "34e9062a-2544-4659-baed-76092a85e779" (by decide) (by decide)).1
    "a@b.com" "0f8fad5b-d9cb-469f-a165-70867728950e" false false

/-! ## Quota records and issued keys -/

theorem countsIssued_of_increment (s : State) (apiKey : String) (saveOk : Bool)
    (hi : CountsIssued s) (hk : apiKey ∉ objectPrototypeNames) :
    CountsIssued ((incrementRequestCount s apiKey saveOk).stateAfter s) := by
  cases hg : ownGet s.requestCounts apiKey with
  | none =>
    rw [incrementRequestCount_absent s apiKey saveOk hg hk]
    exact hi
  | some c0 =>
    intro key c hm
    rw [stateAfter_apiKeys]
    rcases stateAfter_requestCounts s apiKey saveOk with h | h
    · rw [h] at hm
      exact hi key c hm
    · rw [h] at hm
      rcases mem_jsSet _ _ _ _ hm with h1 | h1
      · exact hi key c h1
      · simp only [Prod.mk.injEq] at h1
        rw [h1.1]
        exact hi apiKey c0 (ownGet_mem _ _ _ hg)

theorem step_countsIssued (s : State) (op : Op) (hc : Consistent s) (hi : CountsIssued s)
    (hw : op.wellFormed = true) (hu : op.uninherited = true) : CountsIssued (step s op) := by
  cases op with
  | issue e fresh keysOk countsOk =>
    intro key c hm
    have hold : ∀ k2 c2, (k2, c2) ∈ s.requestCounts →
        ∃ email, ownGet (step s (Op.issue e fresh keysOk countsOk)).apiKeys email = some k2 := by
      intro k2 c2 h2
      obtain ⟨email, he⟩ := hi k2 c2 h2
      have hne := isUuidV4_ne_empty k2 (hc email k2 (ownGet_mem _ _ _ he)).2.1
      exact ⟨email, step_keeps_binding s _ email k2 he hne⟩
    simp only [step, generateApiKey_requestCounts] at hm
    by_cases hcond : (validateEmail e && !truthyKey (jsGet s.apiKeys e)) = true
    · simp only [hcond, if_true] at hm
      rcases mem_jsSet _ _ _ _ hm with h1 | h1
      · exact hold key c h1
      · simp only [Prod.mk.injEq] at h1
        refine ⟨e, ?_⟩
        simp only [step, generateApiKey_apiKeys, hcond, if_true]
        simp only [Bool.and_eq_true] at hcond
        have hne : e ≠ "__proto__" := by
          intro he
          apply validateEmail_not_inherited e hcond.1
          subst he
          decide
        rw [h1.1]
        exact ownGet_jsSet_self _ _ _ hne
    · simp only [hcond, if_false] at hm
      exact hold key c hm
  | increment apiKey saveOk =>
    simp only [Op.uninherited, Bool.not_eq_true', decide_eq_false_iff_not] at hu
    exact countsIssued_of_increment s apiKey saveOk hi hu
  | request queryKey bodyKey saveOk =>
    simp only [step, gate_state]
    split
    · next ha =>
      obtain ⟨email, key, hget, hkey⟩ := (authenticateApiKey_iff s hc _).mp ha
      rw [hkey]
      exact countsIssued_of_increment s key saveOk hi
        (isUuidV4_not_inherited key (hc email key (ownGet_mem _ _ _ hget)).2.1)
    · exact hi

/-- Along runs whose direct `incrementRequestCount` calls are on names that objects do not
inherit, the keys with an entry in `requestCounts` are the issued keys. -/
theorem run_countsIssued (ops : List Op) (s : State) (hc : Consistent s) (hi : CountsIssued s)
    (hw : ∀ op ∈ ops, op.wellFormed = true ∧ op.uninherited = true) :
    CountsIssued (run s ops) ∧ Consistent (run s ops) := by
  induction ops generalizing s with
  | nil => exact ⟨hi, hc⟩
  | cons op rest ih =>
    simp only [run, List.foldl_cons]
    have h1 := hw op (List.mem_cons_self _ _)
    exact ih (step s op) (step_consistent s op hc h1.1) (step_countsIssued s op hc hi h1.1 h1.2)
      (fun o ho => hw o (List.mem_cons_of_mem _ ho))

/-- C16, at the failing input: after the single call `incrementRequestCount("constructor")`
on the empty stores, `requestCounts` has the entry `constructor` while no email is bound to
that key. -/
theorem quota_record_without_issued_key :
    ownGet (run State.empty [Op.increment "constructor" true]).requestCounts "constructor" =
      some Count.nan ∧
    (run State.empty [Op.increment "constructor" true]).apiKeys = [] ∧
    ¬ CountsIssued (run State.empty [Op.increment "constructor" true]) := by
  refine ⟨by decide, by decide, ?_⟩
  intro h
  obtain ⟨email, he⟩ := h "constructor" Count.nan (by decide)
  have h0 : (run State.empty [Op.increment "constructor" true]).apiKeys = [] := by decide
  rw [h0] at he
  simp [ownGet] at he

/-! ## Restart -/

theorem generateApiKey_state_ok (s : State) (email fresh : String) :
    (generateApiKey s email fresh true true).2 =
      if validateEmail email && !truthyKey (jsGet s.apiKeys email) then
        saveRequestCounts (saveApiKeys { s with
          apiKeys := jsSet s.apiKeys email fresh
          requestCounts := jsSet s.requestCounts fresh (Count.num 0) } true) true
      else s := by
  unfold generateApiKey
  by_cases hv : validateEmail email = true
  · by_cases ht : truthyKey (jsGet s.apiKeys email) = true
    · simp [hv, ht]
    · simp only [Bool.not_eq_true] at ht
      simp [hv, ht]
  · simp only [Bool.not_eq_true] at hv
    simp [hv]

theorem stateAfter_ok (s : State) (apiKey : String) :
    (incrementRequestCount s apiKey true).stateAfter s = s ∨
    (incrementRequestCount s apiKey true).stateAfter s =
      saveRequestCounts
        { s with
          requestCounts :=
            jsSet s.requestCounts apiKey (incremented (jsGet s.requestCounts apiKey)) }
        true := by
  unfold incrementRequestCount
  split
  · split
    · exact Or.inl rfl
    · exact Or.inr rfl
  · exact Or.inl rfl

theorem synced_of_increment (s : State) (apiKey : String) (hs : Synced s) :
    Synced ((incrementRequestCount s apiKey true).stateAfter s) := by
  rcases stateAfter_ok s apiKey with h | h
  · rw [h]; exact hs
  · rw [h]
    exact ⟨hs.1, Or.inl rfl⟩

theorem step_synced (s : State) (op : Op) (hs : Synced s) (hw : op.writesSucceed = true) :
    Synced (step s op) := by
  cases op with
  | issue e fresh keysOk countsOk =>
    simp only [Op.writesSucceed, Bool.and_eq_true] at hw
    obtain ⟨h1, h2⟩ := hw
    subst h1 h2
    simp only [step, generateApiKey_state_ok]
    split
    · exact ⟨rfl, Or.inl rfl⟩
    · exact hs
  | increment apiKey saveOk =>
    simp only [Op.writesSucceed] at hw
    subst hw
    exact synced_of_increment s apiKey hs
  | request queryKey bodyKey saveOk =>
    simp only [Op.writesSucceed] at hw
    subst hw
    simp only [step, gate_state]
    split
    · exact synced_of_increment s _ hs
    · exact hs

theorem reload_of_synced (s : State) (hs : Synced s) (hcap : Capped s) :
    ∃ s2, reload s = some s2 ∧ s2.apiKeys = s.apiKeys ∧ s2.requestCounts = s.requestCounts := by
  obtain ⟨h1, h2⟩ := hs
  have hid : s.requestCounts.map (fun p => (p.1, Count.ofJson p.2.toJson)) = s.requestCounts := by
    have : ∀ p ∈ s.requestCounts, (fun p : String × Count => (p.1, Count.ofJson p.2.toJson)) p
        = id p := by
      intro p hp
      obtain ⟨n, hn, _⟩ := hcap p.1 p.2 hp
      simp only [id]
      exact Prod.ext rfl (by simp [hn, Count.toJson, Count.ofJson])
    rw [List.map_congr_left this]
    simp
  unfold reload startup
  rw [h1]
  rcases h2 with h2 | ⟨h2, h3⟩
  · rw [h2]
    refine ⟨_, rfl, rfl, ?_⟩
    simp only [List.map_map]
    exact hid
  · rw [h2]
    exact ⟨_, rfl, rfl, h3.symm⟩

/-- When every write succeeds and no direct `incrementRequestCount` call is on a name that
objects inherit, a restart reproduces both maps. -/
theorem reload_after_run (ops : List Op) (s : State) (hc : Consistent s) (hcap : Capped s)
    (hs : Synced s)
    (hw : ∀ op ∈ ops,
      op.wellFormed = true ∧ op.uninherited = true ∧ op.writesSucceed = true) :
    ∃ s2, reload (run s ops) = some s2 ∧ s2.apiKeys = (run s ops).apiKeys ∧
      s2.requestCounts = (run s ops).requestCounts := by
  have hall : Consistent (run s ops) ∧ Capped (run s ops) ∧ Synced (run s ops) := by
    induction ops generalizing s with
    | nil => exact ⟨hc, hcap, hs⟩
    | cons op rest ih =>
      simp only [run, List.foldl_cons]
      have h1 := hw op (List.mem_cons_self _ _)
      exact ih (step s op) (step_consistent s op hc h1.1) (step_capped s op hc hcap h1.2.1)
        (step_synced s op hs h1.2.2) (fun o ho => hw o (List.mem_cons_of_mem _ ho))
  exact reload_of_synced _ hall.2.2 hall.2.1

/-- C13, at the failing input: a key is issued and `incrementRequestCount("constructor")` is
called, every write succeeding. Memory then holds `constructor: NaN`, the count file holds
`constructor: null`, and the count map after a restart differs from the one in memory. -/
theorem restart_differs_after_inherited_name :
    (reload (run State.empty
        [Op.issue "a@b.com" "34e9062a-2544-4659-baed-76092a85e779" true true,
         Op.increment "constructor" true])).map State.requestCounts =
      some [("34e9062a-2544-4659-baed-76092a85e779", Count.num 0),
        ("constructor", Count.null)] ∧
    (run State.empty
        [Op.issue "a@b.com" "34e9062a-2544-4659-baed-76092a85e779" true true,
         Op.increment "constructor" true]).requestCounts =
      [("34e9062a-2544-4659-baed-76092a85e779", Count.num 0), ("constructor", Count.nan)] ∧
    (reload (run State.empty
        [Op.issue "a@b.com" "34e9062a-2544-4659-baed-76092a85e779" true true,
         Op.increment "constructor" true])).map State.requestCounts ≠
      some (run State.empty
        [Op.issue "a@b.com" "34e9062a-2544-4659-baed-76092a85e779" true true,
         Op.increment "constructor" true]).requestCounts := by
  refine ⟨by decide, by decide, by decide⟩

end AuthApi
